import Mathlib

/-!
Verification development for the X/Twitter thread scraper (`scraper.py`).

The scraper renders a thread page, determines the thread author from the first
tweet article's permalink, scroll-scans the article list collecting tweets by
that author (with stall/tail termination counters), resolves video media from a
passively captured pool of network URLs, and runs a second media pass over
tweets whose media was empty on first parse.

The embedding below mirrors the source:
 * the live DOM is modelled as a static `Document` holding the materialized
   tweet `Article`s (ephemeral selector lookups become pure functions on the
   recorded attributes);
 * the network is modelled as a `NetEnv` giving each URL's GET outcome
   (status and body lines, or a raised transport error) and HEAD content length;
 * Python string manipulation is re-implemented character-by-character with the
   same semantics (`str.replace` of single characters, `str.strip`,
   `str.endswith`, slicing, `re.search` of the concrete patterns used);
 * Python exceptions are `Except`/`Option` values.
-/

/-! ### Python string primitives -/

/-- All characters of a string, in order. -/
def chars (s : String) : List Char := s.toList

/-- Rebuild a string from characters. -/
def ofChars (cs : List Char) : String := String.mk cs

/-- Python `s.replace(c, "")` for a single-character pattern: drop every
occurrence of the character (`clean_count` only ever deletes `","` and `"."`). -/
def removeChar (ch : Char) (cs : List Char) : List Char :=
  cs.filter (fun c => c ≠ ch)

/-- Python `s.strip()` on a character list: drop whitespace from both ends. -/
def stripWs (cs : List Char) : List Char :=
  ((cs.dropWhile Char.isWhitespace).reverse.dropWhile Char.isWhitespace).reverse

/-- Python `s.endswith(pat)` on character lists. -/
def endsWithL (cs pat : List Char) : Bool :=
  pat.isSuffixOf cs

/-- Whether `pat` occurs as a contiguous substring of `cs`
(Python's `pat in s` and the CSS `[attr*=...]` substring matcher). -/
def containsL (cs pat : List Char) : Bool :=
  (List.range (cs.length + 1)).any (fun i => pat.isPrefixOf (cs.drop i))

/-- Substring containment on strings. -/
def strContains (s pat : String) : Bool :=
  containsL (chars s) (chars pat)

/-- Numeric value of a list of ASCII digits, most significant first. -/
def digitsVal (cs : List Char) : Nat :=
  cs.foldl (fun a c => a * 10 + (c.toNat - 48)) 0

/-- Leading maximal run of ASCII digits (a greedy regex `\d+`). -/
def takeDigits (cs : List Char) : List Char :=
  cs.takeWhile Char.isDigit

/-- Python `int(s)` / `float(s)` restricted to integral literals: optional
sign, then one or more ASCII digits, surrounded by optional whitespace;
`none` models the raised `ValueError`.  (`clean_count` removes every `"."`
before converting, so the `float` argument never contains a decimal point.) -/
def pyParseInt (s : String) : Option Int :=
  match stripWs (chars s) with
  | '+' :: rest => if rest ≠ [] ∧ rest.all Char.isDigit then some (digitsVal rest) else none
  | '-' :: rest => if rest ≠ [] ∧ rest.all Char.isDigit then some (-(digitsVal rest : Int)) else none
  | cs => if cs ≠ [] ∧ cs.all Char.isDigit then some (digitsVal cs) else none

/-! ### `clean_count` (scraper.py lines 88-99)

```python
def clean_count(raw: str | None) -> int:
    if raw is None:
        return 0
    raw = raw.replace(",", "").replace(".", "").strip()
    if raw.endswith("K"):
        return int(float(raw[:-1]) * 1_000)
    if raw.endswith("M"):
        return int(float(raw[:-1]) * 1_000_000)
    try:
        return int(raw)
    except ValueError:
        return 0
```

The result is `Option Int`: `none` models a `ValueError` escaping from the
`float` call in the `K`/`M` branches, which the `try` does not cover. -/
def clean_count (raw : Option String) : Option Int :=
  match raw with
  | none => some 0
  | some r =>
    let r' := ofChars (stripWs (removeChar '.' (removeChar ',' (chars r))))
    if endsWithL (chars r') (chars "K") then
      (pyParseInt (ofChars ((chars r').dropLast))).map (· * 1000)
    else if endsWithL (chars r') (chars "M") then
      (pyParseInt (ofChars ((chars r').dropLast))).map (· * 1000000)
    else
      match pyParseInt r' with
      | some n => some n
      | none => some 0

/-- Python `s.strip("/")`: remove `'/'` from both ends. -/
def stripSlashes (cs : List Char) : List Char :=
  ((cs.dropWhile (fun c => c = '/')).reverse.dropWhile (fun c => c = '/')).reverse

/-- Python `s.split("/")`: split on every slash, keeping empty pieces
(`"".split("/") = [""]`). -/
def splitSlashAux : List Char → List Char → List (List Char)
  | [], acc => [acc.reverse]
  | c :: r, acc =>
    if c = '/' then acc.reverse :: splitSlashAux r [] else splitSlashAux r (c :: acc)

/-- Python `url.strip("/").split("/")` as used for permalink handles. -/
def slashParts (url : String) : List String :=
  (splitSlashAux (stripSlashes (chars url)) []).map ofChars

/-- Python `url.strip("/").split("/")[0]`: the handle segment of a tweet permalink. -/
def firstComponent (url : String) : String :=
  (slashParts url).headD ""

/-- Leftmost match of `re.search(r"/status/(\d+)", url)` (`TWEET_URL_RE`):
scan positions left to right; a position matches when `"/status/"` occurs
there followed by at least one digit, and the captured group is the maximal
digit run. -/
def statusIdL : List Char → Option (List Char)
  | [] => none
  | c :: rest =>
    let here := (chars "/status/").isPrefixOf (c :: rest)
    let ds := takeDigits ((c :: rest).drop 8)
    if here ∧ ds ≠ [] then some ds else statusIdL rest

/-- Tweet id extracted from a permalink, as an opaque digit string. -/
def statusId (url : String) : Option String :=
  (statusIdL (chars url)).map ofChars

/-- Python `s.split()` (whitespace runs, empties dropped). -/
def splitWsAux : List Char → List Char → List (List Char)
  | [], acc => if acc = [] then [] else [acc.reverse]
  | c :: r, acc =>
    if c.isWhitespace then
      (if acc = [] then splitWsAux r [] else acc.reverse :: splitWsAux r [])
    else splitWsAux r (c :: acc)

/-- Interleave the pieces with single spaces (`" ".join(...)`). -/
def joinSpace : List (List Char) → List Char
  | [] => []
  | [w] => w
  | w :: ws => w ++ ' ' :: joinSpace ws

/-- The source `normalise_whitespace` (scraper.py line 102): `" ".join(txt.split())`. -/
def normalise_whitespace (txt : String) : String :=
  ofChars (joinSpace (splitWsAux (chars txt) []))

/-! ### Network environment and media variants -/

/-- One encoded rendition of a video
(the dicts built by `fetch_video_variants` / `variant_from_mp4`). -/
structure Variant where
  bitrate : Option Int
  resolution : Option String
  url : String
deriving DecidableEq

/-- The network as seen by the resolver.  `get` models
`httpx.AsyncClient.get` on a playlist URL: a raised transport error, or a
response with its status code and body split into lines.  `head` models the
`requests.head` metadata probe: the integer value of the `content-length`
header, `0` when the header is absent. -/
structure NetEnv where
  get : String → Except Unit (Nat × List String)
  head : String → Nat

/-- Python `round(n / d)` for positive `d`, ties to even
(`round` uses banker's rounding; the quotient is modelled exactly). -/
def pyRoundDiv (n d : Nat) : Nat :=
  let q := n / d
  let r := n % d
  if 2 * r < d then q else if d < 2 * r then q + 1 else if q % 2 = 0 then q else q + 1

/-- Leftmost match of `re.search(r'/(\d{2,4}x\d{2,4})/', url)`: a slash, a
2-4 digit run, `x`, a 2-4 digit run, a slash; each bounded repetition is
greedy with backtracking (longer counts tried first). -/
def mp4ResolutionL : List Char → Option (List Char)
  | [] => none
  | c :: rest =>
    let attempt := ([4, 3, 2].filterMap (fun k =>
      let ds := rest.take k
      if ds.length = k ∧ ds.all Char.isDigit ∧ rest.drop k ≠ [] ∧ (rest.drop k).headD ' ' = 'x' then
        ([4, 3, 2].filterMap (fun m =>
          let tl := rest.drop (k + 1)
          let es := tl.take m
          if es.length = m ∧ es.all Char.isDigit ∧ (tl.drop m).headD ' ' = '/' then
            some (ds ++ 'x' :: es)
          else none)).head?
      else none)).head?
    if c = '/' then
      match attempt with
      | some r => some r
      | none => mp4ResolutionL rest
    else mp4ResolutionL rest

/-- The `WIDTHxHEIGHT` token from an mp4 URL path, when present. -/
def mp4Resolution (url : String) : Option String :=
  (mp4ResolutionL (chars url)).map ofChars

/-- Source `variant_from_mp4` (scraper.py lines 106-119): resolution from the URL
path, bitrate estimated from the HEAD content length (`round(size/128_000) *
1000`, `None` when the size is `0`); always a single-element list. -/
def variant_from_mp4 (env : NetEnv) (url : String) : List Variant :=
  let size := env.head url
  let bitrate : Option Int :=
    if size ≠ 0 then some (pyRoundDiv size 128000 * 1000 : Nat) else none
  [{ bitrate := bitrate, resolution := mp4Resolution url, url := url }]

/-- Python `line.partition(":")[2]`: everything after the first colon,
`""` when there is none. -/
def afterColon : List Char → List Char
  | [] => []
  | c :: r => if c = ':' then r else afterColon r

/-- Leftmost match of `re.search(r"BANDWIDTH=(\d+)", attrs)`: the literal key
followed by at least one digit (this also matches inside
`AVERAGE-BANDWIDTH=...`, exactly as `re.search` does). -/
def searchKeyDigits (key : List Char) : List Char → Option (List Char)
  | [] => none
  | c :: rest =>
    let ds := takeDigits ((c :: rest).drop key.length)
    if key.isPrefixOf (c :: rest) ∧ ds ≠ [] then some ds
    else searchKeyDigits key rest

/-- Leftmost match of `re.search(r"RESOLUTION=(\d+x\d+)", attrs)`. -/
def searchResolution : List Char → Option (List Char)
  | [] => none
  | c :: rest =>
    let tail' := (c :: rest).drop (chars "RESOLUTION=").length
    let ds := takeDigits tail'
    let after := tail'.drop ds.length
    let es := takeDigits (after.drop 1)
    if (chars "RESOLUTION=").isPrefixOf (c :: rest) ∧ ds ≠ [] ∧
        after.headD ' ' = 'x' ∧ es ≠ [] then
      some (ds ++ 'x' :: es)
    else searchResolution rest

/-- Variants parsed out of a fetched HLS playlist body (the 200-status branch
of `fetch_video_variants`): one `Variant` per `#EXT-X-STREAM-INF` line, with
bandwidth/resolution read from the attribute text after the first colon and
the *playlist's own URL* as the variant URL; an empty harvest falls back to a
single all-`None` variant (`return out or [{...}]`). -/
def m3u8Variants (lines : List String) (url : String) : List Variant :=
  let out := lines.filterMap (fun line =>
    if strContains line "#EXT-X-STREAM-INF" then
      let attrs := afterColon (chars line)
      some { bitrate := (searchKeyDigits (chars "BANDWIDTH=") attrs).map (fun d => (digitsVal d : Int)),
             resolution := (searchResolution attrs).map ofChars,
             url := url }
    else none)
  if out = [] then [{ bitrate := none, resolution := none, url := url }] else out

/-- Source `fetch_video_variants` (scraper.py lines 326-353).  An `.mp4` URL is
wrapped directly by `variant_from_mp4`; otherwise the playlist is fetched:
a raised transport error propagates (`Except.error`), a non-200 status falls
back to `variant_from_mp4` on the playlist URL itself, and a 200 body is
parsed by `m3u8Variants`. -/
def fetch_video_variants (env : NetEnv) (url : String) : Except Unit (List Variant) :=
  if strContains url ".mp4" then .ok (variant_from_mp4 env url)
  else
    match env.get url with
    | .error e => .error e
    | .ok (status, lines) =>
      if status ≠ 200 then .ok (variant_from_mp4 env url)
      else .ok (m3u8Variants lines url)

/-! ### DOM model -/

/-- One materialized tweet `article` node, with the attribute values the
scraper's selector lookups read off it:
 * `links` — the `href` of every `a` element, in document order
   (`query_selector('a[href*="/status/"]')` takes the first one whose href
   contains `"/status/"`);
 * `timeAttr` — the `datetime` attribute of the first `time` element, if any;
 * `tweetTextRaw` — the text harvested by the `_text_with_emojis` DOM walk
   over `div[data-testid="tweetText"]` (literal text runs with emoji `alt`
   texts substituted in place), before whitespace normalisation; `none` when
   no text element exists;
 * `likeRaw`/`retweetRaw`/`replyRaw`/`viewsRaw` — the token produced by the
   `_raw_count`/`_raw_views` selector fallback chains, `""` when every tier
   comes up empty (the chains only read the live DOM, so they are recorded
   here as the resulting token);
 * `imgSrcs` — the `src` of every `img` element;
 * `hasVideoEl` — whether `[data-testid='videoComponent'] video` matches;
 * `poster` — that video element's `poster` attribute;
 * `domVideoIds` — the id list computed by the `_video_ids_in_art` in-page
   attribute scan, in first-occurrence order;
 * `avatarImgSrc` — the avatar `img src` found by `_get_author_avatar`'s
   selectors, if any. -/
structure Article where
  links : List String
  timeAttr : Option String := none
  tweetTextRaw : Option String := none
  likeRaw : String := ""
  retweetRaw : String := ""
  replyRaw : String := ""
  viewsRaw : String := ""
  imgSrcs : List String := []
  hasVideoEl : Bool := false
  poster : Option String := none
  domVideoIds : List String := []
  avatarImgSrc : Option String := none
deriving DecidableEq

/-- The rendered page at one scan pass: the materialized tweet articles in
document order, whether a `Show replies` button is present, and the text of
the display-name span found by the page-level selectors. -/
structure Document where
  articles : List Article
  hasShowReplies : Bool := false
  displayNameSpan : Option String := none
deriving DecidableEq

/-- First `a[href*="/status/"]` of an article. -/
def firstStatusLink (a : Article) : Option String :=
  a.links.find? (fun l => strContains l "/status/")

/-- The article's tweet id: permalink then `TWEET_URL_RE`. -/
def articleTid (a : Article) : Option String :=
  match firstStatusLink a with
  | none => none
  | some url => statusId url

/-! ### Scraper session state and media resolution -/

/-- The `ThreadScraper` instance fields that persist for the object's
lifetime: author identity (resolved at most once, since the guard is
`if self.author_handle is None`), the one-shot `show_more_replies` flag, the
passively captured `video_pool` (asset id to observed URLs), and
`assigned_video_ids`. -/
structure ScraperState where
  author_handle : Option String := none
  author_name : Option String := none
  author_avatar_url : Option String := none
  show_more_replies : Bool := false
  video_pool : List (String × List String) := []
  assigned_video_ids : List String := []
deriving DecidableEq

/-- A fresh `ThreadScraper.__init__` state. -/
def initScraper : ScraperState := {}

/-- Lookup `self.video_pool.get(v, [])` over the assoc-list pool
(`defaultdict(list)`). -/
def poolLookup (pool : List (String × List String)) (v : String) : List String :=
  ((pool.find? (fun p => p.1 = v)).map Prod.snd).getD []

/-- Set insertion on the id set (`set.add`). -/
def insertId (l : List String) (v : String) : List String :=
  if v ∈ l then l else v :: l

/-- The video block of a tweet's media dict. -/
structure VideoBlock where
  thumbnail : Option String
  variants : List Variant
deriving DecidableEq

/-- A tweet's `media` dict: the `images` key (present iff the list is
non-empty, modelled by the list itself) and the optional `video` key. -/
structure MediaObj where
  images : List String := []
  video : Option VideoBlock := none
deriving DecidableEq

/-- Python truthiness of the media dict: `not media` iff it has no key. -/
def MediaObj.isEmptyMedia (m : MediaObj) : Bool :=
  m.images = [] ∧ m.video = none

/-- Leftmost match of
`re.search(r"(?:amplify_video_thumb|amplify_video|ext_tw_video)/(\d+)/", s)`:
at each position the alternatives are tried in order, each must be followed by
`/`, at least one digit, `/`. -/
def regexPoolId (alts : List (List Char)) : List Char → Option (List Char)
  | [] => none
  | c :: rest =>
    let attempt := (alts.filterMap (fun alt =>
      let tl := (c :: rest).drop alt.length
      let ds := takeDigits (tl.drop 1)
      if alt.isPrefixOf (c :: rest) ∧ tl.headD ' ' = '/' ∧ ds ≠ [] ∧
          ((tl.drop 1).drop ds.length).headD ' ' = '/' then
        some ds
      else none)).head?
    match attempt with
    | some r => some r
    | none => regexPoolId alts rest

/-- Asset id derived from the `poster` attribute (`_media` lines 375-378). -/
def posterVideoId (poster : String) : Option String :=
  (regexPoolId [chars "amplify_video_thumb", chars "amplify_video", chars "ext_tw_video"]
    (chars poster)).map ofChars

/-- The asset id `_media` settles on for an article: only when a live video
element is present; poster-derived id preferred, else the first id from the
DOM scan. -/
def derivedVideoId (a : Article) : Option String :=
  if a.hasVideoEl then
    match posterVideoId (a.poster.getD "") with
    | some v => some v
    | none => a.domVideoIds.head?
  else none

/-- Source `_media` (scraper.py lines 356-414).  Images are collected independently;
the video id (if any, and not yet assigned) selects a pool entry, whose URLs
are partitioned into playlists and direct files (excluding audio-only
patterns); playlist fetches are gathered with `return_exceptions=True`, so a
raised fetch is dropped without aborting the others; direct files always
resolve through `variant_from_mp4`; the id is marked assigned whenever the
pool entry was non-empty; a `video` key is attached iff at least one variant
resulted. -/
def media (st : ScraperState) (env : NetEnv) (a : Article) : ScraperState × MediaObj :=
  let images := a.imgSrcs.filter (fun u => strContains u "twimg.com/media")
  if ¬a.hasVideoEl then (st, { images := images })
  else
    let poster := a.poster.getD ""
    match derivedVideoId a with
    | none => (st, { images := images })
    | some v =>
      if v ∈ st.assigned_video_ids then (st, { images := images })
      else
        let pool := poolLookup st.video_pool v
        let m3u8s := pool.filter (fun u => strContains u ".m3u8")
        let mp4s := pool.filter (fun u =>
          strContains u ".mp4" ∧ ¬strContains u "/aud/" ∧
          ¬strContains u "mp4a" ∧ ¬strContains u "m4s")
        let fromManifests := (m3u8s.map (fetch_video_variants env)).foldl
          (fun acc r => match r with | .ok l => acc ++ l | .error _ => acc) []
        -- direct mp4 fallbacks; every url here contains ".mp4", for which
        -- `fetch_video_variants` never raises
        let variants := mp4s.foldl
          (fun acc u => match fetch_video_variants env u with
            | .ok l => acc ++ l | .error _ => acc) fromManifests
        let st' := if pool ≠ [] then
            { st with assigned_video_ids := insertId st.assigned_video_ids v }
          else st
        let obj : MediaObj :=
          if variants ≠ [] then
            { images := images,
              video := some { thumbnail := if poster ≠ "" then some poster else none,
                              variants := variants } }
          else { images := images }
        (st', obj)

/-! ### Tweet parsing -/

/-- The dict returned by `_parse_tweet` (scraper.py lines 436-478).  Note the
four counter fields hold the *raw* on-screen tokens: `_parse_tweet` stores the
strings returned by `_raw_count`/`_raw_views` directly, and `clean_count` is
never applied to them anywhere in the program. -/
structure Item where
  tweet_id : String
  datetime : Option String
  tweet : String
  likes : String
  retweets : String
  replies : String
  views : String
  media : MediaObj
deriving DecidableEq

/-- Source `_text_with_emojis` on the recorded text harvest:
`""` when the text element is absent, else whitespace-normalised. -/
def text_with_emojis (raw : Option String) : String :=
  match raw with
  | none => ""
  | some r => normalise_whitespace r

/-- Source `_parse_tweet`: id and handle from the first status permalink, author
check against `self.author_handle`, then timestamp, text, the four raw
counter tokens, and media (which may mutate `assigned_video_ids`). -/
def parse_tweet (st : ScraperState) (env : NetEnv) (a : Article) :
    ScraperState × Option Item :=
  match firstStatusLink a with
  | none => (st, none)
  | some url =>
    match statusId url with
    | none => (st, none)
    | some tid =>
      if st.author_handle ≠ some (firstComponent url) then (st, none)
      else
        let (st', m) := media st env a
        (st', some { tweet_id := tid,
                     datetime := a.timeAttr,
                     tweet := text_with_emojis a.tweetTextRaw,
                     likes := a.likeRaw,
                     retweets := a.retweetRaw,
                     replies := a.replyRaw,
                     views := a.viewsRaw,
                     media := m })

/-! ### The traversal loop (`_extract_tweets`, scraper.py lines 508-630) -/

/-- Constant `STALL_LIMIT = 3`: passes with no new tweets before stopping. -/
def STALL_LIMIT : Nat := 3

/-- Constant `TAIL_LIMIT = 1`: non-author tweets in a row, after collection started,
before the pass is cut short. -/
def TAIL_LIMIT : Nat := 1

/-- The loop-local state of one `_extract_tweets` call together with the
scraper fields: collected tweets, seen ids, pending media retries
(tweet id and index), and the `stall_count`/`after_thread_tail` counters.
`finished` records that the `while` loop has exited; `fatal` that it exited
through the author-resolution failure `return`s (which skip the second media
pass). -/
structure Session where
  st : ScraperState
  tweets : List Item := []
  seen_ids : List String := []
  pending_media : List (String × Nat) := []
  stall_count : Nat := 0
  after_thread_tail : Nat := 0
  finished : Bool := false
  fatal : Bool := false
deriving DecidableEq

/-- Fresh loop state over the current scraper fields. -/
def initSession (st : ScraperState) : Session := { st := st }

/-- The `for art in articles` body (scraper.py lines 557-601): skip articles
without a permalink/id or already seen; a non-author handle bumps
`after_thread_tail` and, once any tweet has been collected, breaks out of the
pass; an author article resets the tail counter, is parsed, appended, marked
seen, and queued for the second media pass when its media dict is empty.
Returns the updated session and `new_this_pass`. -/
def scanArticles (env : NetEnv) : List Article → Session → Nat → Session × Nat
  | [], s, n => (s, n)
  | a :: rest, s, n =>
    match firstStatusLink a with
    | none => scanArticles env rest s n
    | some url =>
      match statusId url with
      | none => scanArticles env rest s n
      | some tid =>
        if tid ∈ s.seen_ids then scanArticles env rest s n
        else if s.st.author_handle ≠ some (firstComponent url) then
          let s' := { s with after_thread_tail := s.after_thread_tail + 1 }
          if s'.tweets ≠ [] ∧ TAIL_LIMIT ≤ s'.after_thread_tail then (s', n)
          else scanArticles env rest s' n
        else
          let s₁ := { s with after_thread_tail := 0 }
          let (st', ob) := parse_tweet s₁.st env a
          let s₂ := { s₁ with st := st' }
          match ob with
          | none => scanArticles env rest s₂ n
          | some t =>
            let idx := s₂.tweets.length
            let s₃ := { s₂ with tweets := s₂.tweets ++ [t],
                                seen_ids := s₂.seen_ids ++ [tid] }
            let s₄ := if t.media.isEmptyMedia then
                { s₃ with pending_media := s₃.pending_media ++ [(tid, idx)] }
              else s₃
            scanArticles env rest s₄ (n + 1)

/-- The expand-collapsed-content step: at most one successful
`_click_show_replies` per scraper object (the `show_more_replies` flag is
never reset), and a successful click zeroes `stall_count`. -/
def clickStep (doc : Document) (s : Session) : Session :=
  if ¬s.st.show_more_replies ∧ doc.hasShowReplies then
    { s with st := { s.st with show_more_replies := true }, stall_count := 0 }
  else s

/-- Drop the last `n` characters (Python slicing `s[:-n]`). -/
def dropLastN (cs : List Char) (n : Nat) : List Char :=
  cs.take (cs.length - n)

/-- The `_get_author_avatar` selector result with the `_normal/_bigger/_mini`
suffix upgraded to `_400x400` (`re.sub(r'_(normal|bigger|mini)\.(jpg|png)$',
r'_400x400.\2', src)`). -/
def upgradeAvatar (src : String) : String :=
  let cs := chars src
  let try' := ([("_normal.jpg", ".jpg"), ("_bigger.jpg", ".jpg"), ("_mini.jpg", ".jpg"),
                ("_normal.png", ".png"), ("_bigger.png", ".png"), ("_mini.png", ".png")].filterMap
    (fun p => if endsWithL cs (chars p.1) then
        some (ofChars (dropLastN cs (chars p.1).length) ++ "_400x400" ++ p.2)
      else none)).head?
  try'.getD src

/-- Author determination (scraper.py lines 537-554), run only while
`author_handle is None`: the first article's status permalink is split into
path segments; fewer than two segments (or no permalink) abandons the thread
(`return tweets`), else the handle, avatar and display name are fixed. -/
def authorStep (a0 : Article) (doc : Document) (s : Session) : Session :=
  if s.st.author_handle.isSome then s
  else
    match firstStatusLink a0 with
    | none => { s with finished := true, fatal := true }
    | some href =>
      let parts := slashParts href
      if parts.length < 2 then { s with finished := true, fatal := true }
      else
        { s with st := { s.st with
            author_handle := some (parts.headD ""),
            author_avatar_url := a0.avatarImgSrc.map upgradeAvatar,
            author_name := some (doc.displayNameSpan.getD "") } }

/-- One iteration of the `while extracting_tweets` loop: with no materialized
articles, a forced scroll and a stall increment (stopping at the limit);
otherwise the expand step, author determination (whose failure ends the
session), the article scan, and the stall update from `new_this_pass`. -/
def passStep (env : NetEnv) (doc : Document) (s : Session) : Session :=
  if s.finished then s
  else
    match doc.articles with
    | [] =>
      let stall := s.stall_count + 1
      { s with stall_count := stall, finished := decide (STALL_LIMIT ≤ stall) }
    | a0 :: _ =>
      let s₁ := clickStep doc s
      let s₂ := authorStep a0 doc s₁
      if s₂.finished then s₂
      else
        let (s₃, n) := scanArticles env doc.articles s₂ 0
        let stall := if n = 0 then s₃.stall_count + 1 else 0
        { s₃ with stall_count := stall, finished := decide (STALL_LIMIT ≤ stall) }

/-- Run `n` passes of the loop; pass `i` scans the snapshot `docs i` (the page
mutates between passes as it scrolls, so the materialized document is indexed
by pass number; a page that has stopped changing is the constant function). -/
def passIter (env : NetEnv) (docs : Nat → Document) : Nat → Session → Session
  | 0, s => s
  | n + 1, s => passStep env (docs n) (passIter env docs n s)

/-- Articles whose derivable tweet id is not yet seen (the only ones a pass
can still admit). -/
def unseenCount (doc : Document) (seen : List String) : Nat :=
  (doc.articles.filter (fun a =>
    match articleTid a with
    | some t => ¬t ∈ seen
    | none => false)).length

/-- Upper bound on the number of passes the loop can still run on a fixed
document: each pass either admits a new id (paid by `4 * unseenCount`),
burns the one-shot expand click (paid by `4`), or raises the stall counter
toward `STALL_LIMIT`. -/
def sessionMeasure (doc : Document) (s : Session) : Nat :=
  if s.finished then 0
  else
    1 + (if doc.hasShowReplies ∧ ¬s.st.show_more_replies then 4 else 0)
      + 4 * unseenCount doc s.seen_ids + (3 - s.stall_count)

/-- Assignment `tweets[idx]["media"] = m`: replace only the media field of the item at
`idx` (every recorded index is in range in the program). -/
def setMedia (tweets : List Item) (idx : Nat) (m : MediaObj) : List Item :=
  match tweets[idx]? with
  | some t => tweets.set idx { t with media := m }
  | none => tweets

/-- Second media pass (scraper.py lines 618-626): for each pending tweet,
re-locate an article whose permalink contains its id (`find`), re-run
`_parse_tweet`, and overwrite only the `media` key when the re-parse produced
a non-empty media dict.  A tweet whose article is gone is skipped silently. -/
def secondPass (find : String → Option Article) (env : NetEnv) :
    ScraperState → List Item → List (String × Nat) → ScraperState × List Item
  | st, tweets, [] => (st, tweets)
  | st, tweets, (tid, idx) :: rest =>
    match find tid with
    | none => secondPass find env st tweets rest
    | some art =>
      let (st', fixed) := parse_tweet st env art
      match fixed with
      | some f =>
        if ¬f.media.isEmptyMedia then
          secondPass find env st' (setMedia tweets idx f.media) rest
        else secondPass find env st' tweets rest
      | none => secondPass find env st' tweets rest

/-- Selector `article:has(a[href*=.../status/tid...])` of the second pass. -/
def findByTid (doc : Document) (tid : String) : Option Article :=
  doc.articles.find? (fun a => a.links.any (fun l => strContains l ("/status/" ++ tid)))

/-- Source `_extract_tweets`: run the loop to quiescence (the fuel `sessionMeasure`
strictly exceeds the number of passes the loop can take, see
`passIter_finished`), then — unless the author-resolution `return`s fired —
the second media pass. -/
def extract_tweets (env : NetEnv) (doc : Document) (st : ScraperState) :
    ScraperState × List Item :=
  let s := passIter env (fun _ => doc) (sessionMeasure doc (initSession st)) (initSession st)
  if s.fatal then (s.st, s.tweets)
  else secondPass (findByTid doc) env s.st s.tweets s.pending_media

/-! ### `scrape` and the batch driver (`main`) -/

/-- The thread object returned by `scrape` (scraper.py lines 495-505). -/
structure ThreadRecord where
  thread_title : String
  thread_url : String
  tweet_count : Nat
  author_username : Option String
  author_display_name : Option String
  author_avatar : Option String
  tweets : List Item
deriving DecidableEq

/-- Source `ThreadScraper.scrape`: extract the tweets from the rendered document and
assemble the thread object from the scraper's (post-run) author fields. -/
def scrape (st : ScraperState) (env : NetEnv) (url : String) (doc : Document) :
    ScraperState × ThreadRecord :=
  let (st', tweets) := extract_tweets env doc st
  (st', { thread_title := match tweets with
            | [] => "No tweets found"
            | t :: _ => t.tweet,
          thread_url := url,
          tweet_count := tweets.length,
          author_username := st'.author_handle,
          author_display_name := st'.author_name,
          author_avatar := st'.author_avatar_url,
          tweets := tweets })

/-- The URL loop of `main` (scraper.py lines 719-727): a single
`ThreadScraper` is constructed *before* the loop, so one `ScraperState`
threads through every `scrape` call of the batch. -/
def runBatch (env : NetEnv) (jobs : List (String × Document)) (st : ScraperState) :
    ScraperState × List ThreadRecord :=
  jobs.foldl
    (fun acc job =>
      let (st', rec) := scrape acc.1 env job.1 job.2
      (st', acc.2 ++ [rec]))
    (st, [])

/-! ### Concrete fixtures -/

/-- A network environment in which every playlist fetch raises and every HEAD
reports no content length; used where the network is never consulted. -/
def envNone : NetEnv := { get := fun _ => .error (), head := fun _ => 0 }

/-- An authored article of the `@alice` fixture thread. -/
def aliceArt (tid : String) (txt : String) : Article :=
  { links := ["/alice/status/" ++ tid],
    timeAttr := some "2024-05-01T10:00:00.000Z",
    tweetTextRaw := some txt,
    likeRaw := "3",
    imgSrcs := ["https://pbs.twimg.com/media/p.jpg"] }

/-- The trailing reply by a different account. -/
def bobArt : Article :=
  { links := ["/bob/status/999"],
    timeAttr := some "2024-05-01T11:00:00.000Z",
    tweetTextRaw := some "me too" }

/-- The item `extract_tweets` admits for `aliceArt tid txt`. -/
def aliceItem (tid : String) (txt : String) : Item :=
  { tweet_id := tid,
    datetime := some "2024-05-01T10:00:00.000Z",
    tweet := txt,
    likes := "3", retweets := "", replies := "", views := "",
    media := { images := ["https://pbs.twimg.com/media/p.jpg"] } }

/-- The five authored articles of the tail-termination scenario. -/
def fiveAliceArts : List Article :=
  [aliceArt "101" "one", aliceArt "102" "two", aliceArt "103" "three",
   aliceArt "104" "four", aliceArt "105" "five"]

/-- The five items those articles yield. -/
def fiveAliceItems : List Item :=
  [aliceItem "101" "one", aliceItem "102" "two", aliceItem "103" "three",
   aliceItem "104" "four", aliceItem "105" "five"]

/-- What one article pass does to the session: a block `δ` of fresh ids and
the matching items `adds` are appended in lockstep, `new_this_pass` counts
exactly `δ`, and the pass never touches the stall counter, the termination
flags, or the scraper's author/expand fields. -/
def ScanSpec (arts : List Article) (s : Session) (n : Nat) (out : Session × Nat) : Prop :=
  ∃ δ adds,
    out.1.seen_ids = s.seen_ids ++ δ ∧
    out.1.tweets = s.tweets ++ adds ∧
    adds.map Item.tweet_id = δ ∧
    out.2 = n + δ.length ∧
    δ.Nodup ∧
    (∀ t ∈ δ, t ∉ s.seen_ids ∧ ∃ a ∈ arts, articleTid a = some t) ∧
    out.1.st.show_more_replies = s.st.show_more_replies ∧
    out.1.st.author_handle = s.st.author_handle ∧
    out.1.stall_count = s.stall_count ∧
    out.1.finished = s.finished ∧
    out.1.fatal = s.fatal

/-- The identifier bookkeeping invariant of `_extract_tweets`: collected
tweet ids mirror `seen_ids`, which stays duplicate-free. -/
def IdsInv (s : Session) : Prop :=
  s.tweets.map Item.tweet_id = s.seen_ids ∧ s.seen_ids.Nodup

/-- The session `passStep` hands to the article scan. -/
def preScan (env : NetEnv) (doc : Document) (a0 : Article) (s : Session) : Session :=
  authorStep a0 doc (clickStep doc s)

/-- The scan outcome of a pass that reaches the article loop. -/
def postScan (env : NetEnv) (doc : Document) (a0 : Article) (s : Session) : Session × Nat :=
  scanArticles env doc.articles (preScan env doc a0 s) 0

/-- The stall counter after such a pass. -/
def postStall (env : NetEnv) (doc : Document) (a0 : Article) (s : Session) : Nat :=
  if (postScan env doc a0 s).2 = 0 then (postScan env doc a0 s).1.stall_count + 1 else 0

/-- The pass measure that ignores the document: enough once no pass can admit
a new identifier. -/
def streamMeasure (s : Session) : Nat :=
  if s.finished then 0
  else 1 + (if s.st.show_more_replies then 0 else 4) + (3 - s.stall_count)

/-- The non-media payload of an item: id, timestamp, text and the four
counter tokens. -/
def Item.core (t : Item) :
    String × Option String × String × String × String × String × String :=
  (t.tweet_id, t.datetime, t.tweet, t.likes, t.retweets, t.replies, t.views)

/-! ### Fixtures for the claim theorems -/

/-- Counter state for the exclusive-assignment analysis: the pool entry for
asset `123` holds only an audio-segment mp4 URL, which both URL filters
reject. -/
def c5State : ScraperState :=
  { initScraper with
      video_pool := [("123", ["https://video.twimg.com/ext_tw_video/123/aud/0/a.mp4"])] }

/-- An article whose poster names asset `123`. -/
def c5Art : Article :=
  { links := ["/alice/status/55"], hasVideoEl := true,
    poster := some "https://pbs.twimg.com/amplify_video_thumb/123/img/p.jpg" }

/-- An article whose like counter renders `3.2K` and whose retweet, reply and
view tokens are absent. -/
def c3Art : Article :=
  { links := ["/alice/status/77"],
    timeAttr := some "2024-05-01T10:00:00.000Z",
    tweetTextRaw := some "hello  world",
    likeRaw := "3.2K", replyRaw := "12" }

/-- First batch document: a one-tweet thread by `@alice`. -/
def docAlice : Document := { articles := [aliceArt "201" "hello"] }

/-- Second batch document: a one-tweet thread by `@bob`. -/
def docBob : Document := { articles := [bobArt] }

/-- The item a fresh session extracts from `docBob`. -/
def bobItem : Item :=
  { tweet_id := "999", datetime := some "2024-05-01T11:00:00.000Z",
    tweet := "me too", likes := "", retweets := "", replies := "",
    views := "", media := {} }

/-- State for the C5 witness: a direct mp4 URL pooled for asset `5`. -/
def c5wState : ScraperState :=
  { initScraper with video_pool := [("5", ["b/v.mp4"])] }

/-- Article for the C5 witness, deriving asset `5` from its poster. -/
def c5wArt : Article :=
  { links := [], hasVideoEl := true, poster := some "x/amplify_video_thumb/5/p.jpg" }

/-- State for the C8 witness: asset `7` pooled with two playlists and one
direct file. -/
def c8wState : ScraperState :=
  { initScraper with video_pool := [("7", ["a/p1.m3u8", "a/p2.m3u8", "b/v1.mp4"])] }

/-- Article for the C8 witness, deriving asset `7` from its poster. -/
def c8wArt : Article :=
  { links := [], hasVideoEl := true, poster := some "x/amplify_video_thumb/7/p.jpg" }

/-- Playlist body for the C8 witness. -/
def c8wLines : List String :=
  ["#EXT-X-STREAM-INF:BANDWIDTH=2176000,RESOLUTION=1280x720", "s/v.m3u8"]

/-- Network for the C8 witness: the first playlist raises, the second
returns 200 with one stream entry, the HEAD probe reports 256000 bytes. -/
def c8wEnv : NetEnv :=
  { get := fun u => if u = "a/p2.m3u8" then .ok (200, c8wLines) else .error (),
    head := fun _ => 256000 }

/-! ### Structural lemmas about the embedding -/

/-- Frame: `_media` only ever touches `assigned_video_ids`: the author fields, the
expand flag and the pool pass through. -/
theorem media_fields (st : ScraperState) (env : NetEnv) (a : Article) :
    (media st env a).1.author_handle = st.author_handle ∧
    (media st env a).1.author_name = st.author_name ∧
    (media st env a).1.author_avatar_url = st.author_avatar_url ∧
    (media st env a).1.show_more_replies = st.show_more_replies ∧
    (media st env a).1.video_pool = st.video_pool := by
  unfold media
  split
  · simp
  · split
    · simp
    · split
      · simp
      · dsimp only
        refine ⟨?_, ?_, ?_, ?_, ?_⟩ <;> (split <;> rfl)

/-- The scraper state coming out of `_parse_tweet` is either untouched or
exactly the state `media` produced. -/
theorem parse_tweet_st (st : ScraperState) (env : NetEnv) (a : Article) :
    (parse_tweet st env a).1 = st ∨ (parse_tweet st env a).1 = (media st env a).1 := by
  rcases hm : media st env a with ⟨st₂, m⟩
  cases hl : firstStatusLink a with
  | none => left; simp [parse_tweet, hl]
  | some url =>
    cases hs : statusId url with
    | none => left; simp [parse_tweet, hl, hs]
    | some tid =>
      by_cases h : st.author_handle ≠ some (firstComponent url)
      · left; simp [parse_tweet, hl, hs, h]
      · right; simp [parse_tweet, hl, hs, h, hm]

/-- Frame: `_parse_tweet` inherits the frame of `media` on the scraper fields. -/
theorem parse_tweet_fields (st : ScraperState) (env : NetEnv) (a : Article) :
    (parse_tweet st env a).1.author_handle = st.author_handle ∧
    (parse_tweet st env a).1.show_more_replies = st.show_more_replies := by
  rcases parse_tweet_st st env a with h | h
  · rw [h]; exact ⟨rfl, rfl⟩
  · rw [h]
    have hf := media_fields st env a
    exact ⟨hf.1, hf.2.2.2.1⟩

/-- A successful `_parse_tweet` reports the article's own permalink id. -/
theorem parse_tweet_tid (st : ScraperState) (env : NetEnv) (a : Article)
    (st' : ScraperState) (t : Item) (h : parse_tweet st env a = (st', some t)) :
    articleTid a = some t.tweet_id := by
  rcases hm : media st env a with ⟨st₂, m⟩
  cases hl : firstStatusLink a with
  | none => simp [parse_tweet, hl] at h
  | some url =>
    cases hs : statusId url with
    | none => simp [parse_tweet, hl, hs] at h
    | some tid =>
      by_cases hh : st.author_handle ≠ some (firstComponent url)
      · simp [parse_tweet, hl, hs, hh] at h
      · simp only [parse_tweet, hl, hs, hh, hm, if_neg, ite_not, if_false,
          Prod.mk.injEq, Option.some.injEq, not_not, not_false_iff, if_pos] at h
        have ht : t.tweet_id = tid := by
          rw [← h.2]
        simp [articleTid, hl, hs, ht]

/-- A pass that ends at session `s'` differing from `s` only in untracked
fields admits nothing. -/
theorem scanSpec_stop (arts : List Article) (s s' : Session) (n : Nat)
    (hseen : s'.seen_ids = s.seen_ids) (htw : s'.tweets = s.tweets)
    (hflag : s'.st.show_more_replies = s.st.show_more_replies)
    (hah : s'.st.author_handle = s.st.author_handle)
    (hst : s'.stall_count = s.stall_count) (hfin : s'.finished = s.finished)
    (hfat : s'.fatal = s.fatal) :
    ScanSpec arts s n (s', n) :=
  ⟨[], [], by simp [hseen], by simp [htw], rfl, by simp, List.nodup_nil,
    by simp, hflag, hah, hst, hfin, hfat⟩

/-- Prepending a skipped article to a pass. -/
theorem scanSpec_skip (a : Article) (arts : List Article) (s s' : Session) (n : Nat)
    (out : Session × Nat)
    (hseen : s'.seen_ids = s.seen_ids) (htw : s'.tweets = s.tweets)
    (hflag : s'.st.show_more_replies = s.st.show_more_replies)
    (hah : s'.st.author_handle = s.st.author_handle)
    (hst : s'.stall_count = s.stall_count) (hfin : s'.finished = s.finished)
    (hfat : s'.fatal = s.fatal)
    (h : ScanSpec arts s' n out) : ScanSpec (a :: arts) s n out := by
  obtain ⟨δ, adds, h1, h2, h3, h4, h5, h6, h7, h8, h9, h10, h11⟩ := h
  refine ⟨δ, adds, by rw [h1, hseen], by rw [h2, htw], h3, h4, h5, ?_,
    by rw [h7, hflag], by rw [h8, hah], by rw [h9, hst], by rw [h10, hfin], by rw [h11, hfat]⟩
  intro t ht
  obtain ⟨hne, a', ha', hta⟩ := h6 t ht
  exact ⟨by rw [← hseen]; exact hne, a', List.mem_cons_of_mem _ ha', hta⟩

/-- Prepending an admitted article to a pass. -/
theorem scanSpec_admit (a : Article) (arts : List Article) (s s₄ : Session) (n : Nat)
    (tid : String) (t : Item) (out : Session × Nat)
    (hta : articleTid a = some tid) (htid : t.tweet_id = tid)
    (hfresh : tid ∉ s.seen_ids)
    (hseen : s₄.seen_ids = s.seen_ids ++ [tid]) (htw : s₄.tweets = s.tweets ++ [t])
    (hflag : s₄.st.show_more_replies = s.st.show_more_replies)
    (hah : s₄.st.author_handle = s.st.author_handle)
    (hst : s₄.stall_count = s.stall_count) (hfin : s₄.finished = s.finished)
    (hfat : s₄.fatal = s.fatal)
    (h : ScanSpec arts s₄ (n + 1) out) : ScanSpec (a :: arts) s n out := by
  obtain ⟨δ, adds, h1, h2, h3, h4, h5, h6, h7, h8, h9, h10, h11⟩ := h
  refine ⟨tid :: δ, t :: adds, ?_, ?_, ?_, ?_, ?_, ?_,
    by rw [h7, hflag], by rw [h8, hah], by rw [h9, hst], by rw [h10, hfin], by rw [h11, hfat]⟩
  · rw [h1, hseen, List.append_assoc]; rfl
  · rw [h2, htw, List.append_assoc]; rfl
  · simp [h3, htid]
  · simp [h4]; omega
  · refine List.nodup_cons.2 ⟨?_, h5⟩
    intro hmem
    have := (h6 tid hmem).1
    rw [hseen] at this
    exact this (List.mem_append_right _ (List.mem_singleton.2 rfl))
  · intro u hu
    rcases List.mem_cons.1 hu with rfl | hu'
    · exact ⟨hfresh, a, List.mem_cons_self a arts, hta⟩
    · obtain ⟨hne, a', ha', hta'⟩ := h6 u hu'
      rw [hseen] at hne
      exact ⟨fun hc => hne (List.mem_append_left _ hc), a', List.mem_cons_of_mem _ ha', hta'⟩

/-- The article pass satisfies its specification. -/
theorem scan_spec (env : NetEnv) (arts : List Article) (s : Session) (n : Nat) :
    ScanSpec arts s n (scanArticles env arts s n) := by
  induction arts generalizing s n with
  | nil =>
    exact ⟨[], [], by simp [scanArticles], by simp [scanArticles], rfl,
      by simp [scanArticles], List.nodup_nil, by simp, rfl, rfl, rfl, rfl, rfl⟩
  | cons a rest ih =>
    cases hl : firstStatusLink a with
    | none =>
      have he : scanArticles env (a :: rest) s n = scanArticles env rest s n := by
        simp [scanArticles, hl]
      rw [he]
      exact scanSpec_skip a rest s s n _ rfl rfl rfl rfl rfl rfl rfl (ih s n)
    | some url =>
      cases hs : statusId url with
      | none =>
        have he : scanArticles env (a :: rest) s n = scanArticles env rest s n := by
          simp [scanArticles, hl, hs]
        rw [he]
        exact scanSpec_skip a rest s s n _ rfl rfl rfl rfl rfl rfl rfl (ih s n)
      | some tid =>
        by_cases hseen : tid ∈ s.seen_ids
        · have he : scanArticles env (a :: rest) s n = scanArticles env rest s n := by
            simp [scanArticles, hl, hs, hseen]
          rw [he]
          exact scanSpec_skip a rest s s n _ rfl rfl rfl rfl rfl rfl rfl (ih s n)
        · by_cases hh : s.st.author_handle ≠ some (firstComponent url)
          · by_cases hbrk : ({ s with after_thread_tail := s.after_thread_tail + 1 } : Session).tweets ≠ [] ∧
                TAIL_LIMIT ≤ ({ s with after_thread_tail := s.after_thread_tail + 1 } : Session).after_thread_tail
            · have he : scanArticles env (a :: rest) s n =
                  ({ s with after_thread_tail := s.after_thread_tail + 1 }, n) := by
                simp [scanArticles, hl, hs, hseen, hh, hbrk]
              rw [he]
              exact scanSpec_stop (a :: rest) s _ n rfl rfl rfl rfl rfl rfl rfl
            · have he : scanArticles env (a :: rest) s n =
                  scanArticles env rest { s with after_thread_tail := s.after_thread_tail + 1 } n := by
                simp [scanArticles, hl, hs, hseen, hh, hbrk]
              rw [he]
              exact scanSpec_skip a rest s _ n _ rfl rfl rfl rfl rfl rfl rfl (ih _ n)
          · rcases hp : parse_tweet s.st env a with ⟨st', ob⟩
            have hfields := parse_tweet_fields s.st env a
            rw [hp] at hfields
            cases ob with
            | none =>
              have he : scanArticles env (a :: rest) s n =
                  scanArticles env rest { s with after_thread_tail := 0, st := st' } n := by
                simp [scanArticles, hl, hs, hseen, hh, hp]
              rw [he]
              exact scanSpec_skip a rest s { s with after_thread_tail := 0, st := st' } n _
                rfl rfl hfields.2 hfields.1 rfl rfl rfl (ih _ n)
            | some t =>
              have hta : articleTid a = some tid := by simp [articleTid, hl, hs]
              have htid : t.tweet_id = tid := by
                have h₂ := parse_tweet_tid s.st env a st' t hp
                exact (Option.some.inj (hta.symm.trans h₂)).symm
              by_cases hpend : t.media.isEmptyMedia
              · have hspec := ih
                  { s with after_thread_tail := 0, st := st',
                           tweets := s.tweets ++ [t], seen_ids := s.seen_ids ++ [tid],
                           pending_media := s.pending_media ++ [(tid, s.tweets.length)] } (n + 1)
                have he : scanArticles env (a :: rest) s n =
                    scanArticles env rest
                      { s with after_thread_tail := 0, st := st',
                               tweets := s.tweets ++ [t], seen_ids := s.seen_ids ++ [tid],
                               pending_media := s.pending_media ++ [(tid, s.tweets.length)] } (n + 1) := by
                  simp [scanArticles, hl, hs, hseen, hh, hp, hpend]
                rw [he]
                exact scanSpec_admit a rest s
                  { s with after_thread_tail := 0, st := st',
                           tweets := s.tweets ++ [t], seen_ids := s.seen_ids ++ [tid],
                           pending_media := s.pending_media ++ [(tid, s.tweets.length)] }
                  n tid t _ hta htid hseen rfl rfl hfields.2 hfields.1 rfl rfl rfl hspec
              · have hspec := ih
                  { s with after_thread_tail := 0, st := st',
                           tweets := s.tweets ++ [t], seen_ids := s.seen_ids ++ [tid] } (n + 1)
                have he : scanArticles env (a :: rest) s n =
                    scanArticles env rest
                      { s with after_thread_tail := 0, st := st',
                               tweets := s.tweets ++ [t], seen_ids := s.seen_ids ++ [tid] } (n + 1) := by
                  simp [scanArticles, hl, hs, hseen, hh, hp, hpend]
                rw [he]
                exact scanSpec_admit a rest s
                  { s with after_thread_tail := 0, st := st',
                           tweets := s.tweets ++ [t], seen_ids := s.seen_ids ++ [tid] }
                  n tid t _ hta htid hseen rfl rfl hfields.2 hfields.1 rfl rfl rfl hspec

/-- A finished session is a fixed point of the loop body. -/
theorem passStep_finished_stable (env : NetEnv) (doc : Document) (s : Session)
    (h : s.finished = true) : passStep env doc s = s := by
  simp [passStep, h]

/-- Once the loop has finished, further passes change nothing. -/
theorem iter_stable (env : NetEnv) (docs : Nat → Document) (n m : Nat) (s : Session)
    (hn : (passIter env docs n s).finished = true) (hnm : n ≤ m) :
    passIter env docs m s = passIter env docs n s := by
  induction m with
  | zero =>
    have : n = 0 := Nat.le_zero.1 hnm
    rw [this]
  | succ m ih =>
    rcases Nat.lt_or_ge n (m + 1) with hlt | hge
    · have hm : n ≤ m := Nat.lt_succ_iff.1 hlt
      have he := ih hm
      show passStep env (docs m) (passIter env docs m s) = _
      rw [he, passStep_finished_stable env (docs m) _ hn]
    · have : n = m + 1 := Nat.le_antisymm hnm hge
      rw [this]

/-- Case split: `clickStep` is the identity or exactly the flag/stall update. -/
theorem clickStep_spec (doc : Document) (s : Session) :
    clickStep doc s = s ∨
    (clickStep doc s = { s with st := { s.st with show_more_replies := true }, stall_count := 0 } ∧
      s.st.show_more_replies = false ∧ doc.hasShowReplies = true) := by
  unfold clickStep
  split
  · rename_i hc
    exact Or.inr ⟨rfl, by simpa using hc.1, hc.2⟩
  · exact Or.inl rfl

/-- Fields `authorStep` never touches. -/
theorem authorStep_fields (a0 : Article) (doc : Document) (s : Session) :
    (authorStep a0 doc s).tweets = s.tweets ∧
    (authorStep a0 doc s).seen_ids = s.seen_ids ∧
    (authorStep a0 doc s).pending_media = s.pending_media ∧
    (authorStep a0 doc s).stall_count = s.stall_count ∧
    (authorStep a0 doc s).st.show_more_replies = s.st.show_more_replies ∧
    (authorStep a0 doc s).after_thread_tail = s.after_thread_tail := by
  unfold authorStep
  split
  · exact ⟨rfl, rfl, rfl, rfl, rfl, rfl⟩
  · cases firstStatusLink a0 with
    | none => exact ⟨rfl, rfl, rfl, rfl, rfl, rfl⟩
    | some href =>
      dsimp only
      split <;> exact ⟨rfl, rfl, rfl, rfl, rfl, rfl⟩

/-- Case split: `authorStep` either keeps the finished flag or raises it (fatally). -/
theorem authorStep_finished (a0 : Article) (doc : Document) (s : Session) :
    (authorStep a0 doc s).finished = s.finished ∨ (authorStep a0 doc s).finished = true := by
  unfold authorStep
  split
  · exact Or.inl rfl
  · cases firstStatusLink a0 with
    | none => exact Or.inr rfl
    | some href =>
      dsimp only
      split
      · exact Or.inr rfl
      · exact Or.inl rfl

/-- Exhaustive description of one unfinished pass: the empty-document stall,
the author-resolution exit, or the full article scan with its stall update. -/
theorem passStep_spec (env : NetEnv) (doc : Document) (s : Session)
    (hf : s.finished = false) :
    (doc.articles = [] ∧
      passStep env doc s =
        { s with stall_count := s.stall_count + 1,
                 finished := decide (STALL_LIMIT ≤ s.stall_count + 1) }) ∨
    (∃ a0, doc.articles.head? = some a0 ∧ (preScan env doc a0 s).finished = true ∧
      passStep env doc s = preScan env doc a0 s) ∨
    (∃ a0, doc.articles.head? = some a0 ∧ (preScan env doc a0 s).finished = false ∧
      passStep env doc s =
        { (postScan env doc a0 s).1 with
          stall_count := postStall env doc a0 s,
          finished := decide (STALL_LIMIT ≤ postStall env doc a0 s) }) := by
  cases hd : doc.articles with
  | nil =>
    left
    refine ⟨rfl, ?_⟩
    simp only [passStep, hf, hd]
    rfl
  | cons a0 tl =>
    by_cases hsf : (preScan env doc a0 s).finished = true
    · right; left
      refine ⟨a0, rfl, hsf, ?_⟩
      simp only [preScan] at hsf
      simp [passStep, hf, hd, hsf, preScan]
    · right; right
      have hsf' : (preScan env doc a0 s).finished = false := by
        cases hb : (preScan env doc a0 s).finished
        · rfl
        · exact absurd hb hsf
      refine ⟨a0, rfl, hsf', ?_⟩
      have hsf'' := hsf'
      simp only [preScan] at hsf''
      simp only [passStep, hf, hd, Bool.false_eq_true, if_false]
      simp only [hsf'', Bool.false_eq_true, if_false]
      simp only [postStall, postScan, preScan, hd]

/-- One pass preserves the identifier invariant. -/
theorem passStep_idsInv (env : NetEnv) (doc : Document) (s : Session)
    (h : IdsInv s) : IdsInv (passStep env doc s) := by
  by_cases hf : s.finished = true
  · rw [passStep_finished_stable env doc s hf]; exact h
  · have hf' : s.finished = false := by
      cases hb : s.finished
      · rfl
      · exact absurd hb hf
    rcases passStep_spec env doc s hf' with ⟨hd, he⟩ | ⟨a0, hd, hsf, he⟩ | ⟨a0, hd, hsf, he⟩
    · rw [he]; exact h
    · rw [he]
      have hc := clickStep_spec doc s
      have ha := authorStep_fields a0 doc (clickStep doc s)
      have hct : (clickStep doc s).tweets = s.tweets ∧ (clickStep doc s).seen_ids = s.seen_ids := by
        rcases hc with hc | ⟨hc, _⟩ <;> rw [hc] <;> exact ⟨rfl, rfl⟩
      exact ⟨by rw [preScan, ha.1, ha.2.1, hct.1, hct.2]; exact h.1,
             by rw [preScan, ha.2.1, hct.2]; exact h.2⟩
    · rw [he]
      have hc := clickStep_spec doc s
      have ha := authorStep_fields a0 doc (clickStep doc s)
      have hct : (clickStep doc s).tweets = s.tweets ∧ (clickStep doc s).seen_ids = s.seen_ids := by
        rcases hc with hc | ⟨hc, _⟩ <;> rw [hc] <;> exact ⟨rfl, rfl⟩
      have hpre : (preScan env doc a0 s).tweets = s.tweets ∧
          (preScan env doc a0 s).seen_ids = s.seen_ids := by
        exact ⟨by rw [preScan, ha.1, hct.1], by rw [preScan, ha.2.1, hct.2]⟩
      obtain ⟨δ, adds, e1, e2, e3, e4, e5, e6, _⟩ :=
        scan_spec env doc.articles (preScan env doc a0 s) 0
      constructor
      · show (postScan env doc a0 s).1.tweets.map Item.tweet_id =
          (postScan env doc a0 s).1.seen_ids
        rw [postScan, e2, List.map_append, e3, hpre.1, h.1, e1, hpre.2]
      · show (postScan env doc a0 s).1.seen_ids.Nodup
        rw [postScan, e1, hpre.2]
        refine List.nodup_append.2 ⟨h.2, e5, ?_⟩
        intro x hx hx'
        exact ((e6 x hx').1) (hpre.2 ▸ hx)

/-- Filtering with a stronger predicate yields at most as many elements. -/
theorem length_filter_mono {α : Type} (l : List α) (p q : α → Bool)
    (h : ∀ a ∈ l, q a = true → p a = true) :
    (l.filter q).length ≤ (l.filter p).length := by
  induction l with
  | nil => simp
  | cons a tl ih =>
    have ih' := ih (fun x hx => h x (List.mem_cons_of_mem _ hx))
    by_cases hq : q a = true
    · have hp := h a (List.mem_cons_self _ _) hq
      simp [List.filter_cons, hq, hp]
      exact ih'
    · have hq' : q a = false := by
        cases hb : q a
        · rfl
        · exact absurd hb hq
      cases hp : p a <;> simp [List.filter_cons, hq', hp] <;> omega

/-- Strict version, witnessed by an element only the weaker filter keeps. -/
theorem length_filter_strict {α : Type} (l : List α) (p q : α → Bool)
    (h : ∀ a ∈ l, q a = true → p a = true)
    (a₀ : α) (h₀ : a₀ ∈ l) (hp : p a₀ = true) (hq : q a₀ = false) :
    (l.filter q).length < (l.filter p).length := by
  induction l with
  | nil => cases h₀
  | cons a tl ih =>
    have hmono := length_filter_mono tl p q (fun x hx => h x (List.mem_cons_of_mem _ hx))
    rcases List.mem_cons.1 h₀ with rfl | hmem
    · simp [List.filter_cons, hp, hq]
      omega
    · have ih' := ih (fun x hx => h x (List.mem_cons_of_mem _ hx)) hmem
      by_cases hqa : q a = true
      · have hpa := h a (List.mem_cons_self _ _) hqa
        simp [List.filter_cons, hqa, hpa]
        exact ih'
      · have hqa' : q a = false := by
          cases hb : q a
          · rfl
          · exact absurd hb hqa
        cases hpa : p a <;> simp [List.filter_cons, hqa', hpa] <;> omega

/-- Seeing more ids never increases the number of admissible articles. -/
theorem unseenCount_mono (doc : Document) (seen seen' : List String)
    (hsub : ∀ t, t ∈ seen → t ∈ seen') :
    unseenCount doc seen' ≤ unseenCount doc seen := by
  refine length_filter_mono doc.articles _ _ ?_
  intro a _ hq
  cases ht : articleTid a with
  | none => rw [ht] at hq; simp at hq
  | some t =>
    rw [ht] at hq
    simp only [decide_eq_true_eq] at hq
    simp only [ht, decide_eq_true_eq]
    exact fun hc => hq (hsub t hc)

/-- An article whose fresh id became seen strictly shrinks the count. -/
theorem unseenCount_strict (doc : Document) (seen seen' : List String)
    (hsub : ∀ t, t ∈ seen → t ∈ seen')
    (t₀ : String) (a₀ : Article) (ha : a₀ ∈ doc.articles)
    (ht : articleTid a₀ = some t₀) (h1 : t₀ ∉ seen) (h2 : t₀ ∈ seen') :
    unseenCount doc seen' < unseenCount doc seen := by
  refine length_filter_strict doc.articles _ _ ?_ a₀ ha ?_ ?_
  · intro a _ hq
    cases hta : articleTid a with
    | none => rw [hta] at hq; simp at hq
    | some t =>
      rw [hta] at hq
      simp only [decide_eq_true_eq] at hq
      simp only [hta, decide_eq_true_eq]
      exact fun hc => hq (hsub t hc)
  · rw [ht]; simpa using h1
  · rw [ht]; simpa using h2

/-- The static loop measure of an unfinished session, explicitly. -/
theorem sessionMeasure_eq (doc : Document) (s : Session) (h : s.finished = false) :
    sessionMeasure doc s =
      1 + (if doc.hasShowReplies ∧ ¬s.st.show_more_replies then 4 else 0)
        + 4 * unseenCount doc s.seen_ids + (3 - s.stall_count) := by
  simp [sessionMeasure, h]

/-- Finished sessions weigh nothing. -/
theorem sessionMeasure_zero (doc : Document) (s : Session) (h : s.finished = true) :
    sessionMeasure doc s = 0 := by
  simp [sessionMeasure, h]

/-- Unfinished sessions weigh at least one. -/
theorem sessionMeasure_pos (doc : Document) (s : Session) (h : s.finished = false) :
    1 ≤ sessionMeasure doc s := by
  rw [sessionMeasure_eq doc s h]
  omega

/-- What reaches the article scan: tweets/seen unchanged, and the expand
flag/stall pair either untouched or consumed by the one-shot click. -/
theorem preScan_fields (env : NetEnv) (doc : Document) (a0 : Article) (s : Session) :
    (preScan env doc a0 s).tweets = s.tweets ∧
    (preScan env doc a0 s).seen_ids = s.seen_ids ∧
    (((preScan env doc a0 s).st.show_more_replies = s.st.show_more_replies ∧
        (preScan env doc a0 s).stall_count = s.stall_count) ∨
      ((preScan env doc a0 s).st.show_more_replies = true ∧
        (preScan env doc a0 s).stall_count = 0 ∧
        s.st.show_more_replies = false ∧ doc.hasShowReplies = true)) := by
  have ha := authorStep_fields a0 doc (clickStep doc s)
  rcases clickStep_spec doc s with hc | ⟨hc, hflag, hbtn⟩
  · refine ⟨?_, ?_, Or.inl ⟨?_, ?_⟩⟩
    · rw [preScan, ha.1, hc]
    · rw [preScan, ha.2.1, hc]
    · rw [preScan, ha.2.2.2.2.1, hc]
    · rw [preScan, ha.2.2.2.1, hc]
  · refine ⟨?_, ?_, Or.inr ⟨?_, ?_, hflag, hbtn⟩⟩
    · rw [preScan, ha.1, hc]
    · rw [preScan, ha.2.1, hc]
    · rw [preScan, ha.2.2.2.2.1, hc]
    · rw [preScan, ha.2.2.2.1, hc]

/-- On a fixed document, every pass from an unfinished session strictly
decreases the loop measure: the loop cannot run more than
`sessionMeasure doc s` passes before `finished` is set. -/
theorem passStep_measure (env : NetEnv) (doc : Document) (s : Session)
    (hf : s.finished = false) :
    sessionMeasure doc (passStep env doc s) < sessionMeasure doc s := by
  have hpos := sessionMeasure_pos doc s hf
  rcases passStep_spec env doc s hf with ⟨hd, he⟩ | ⟨a0, hd, hsf, he⟩ | ⟨a0, hd, hsf, he⟩
  · rw [he]
    by_cases h3 : STALL_LIMIT ≤ s.stall_count + 1
    · rw [sessionMeasure_zero _ _ (by simp [h3])]
      omega
    · rw [sessionMeasure_eq _ _ (by simp [h3]), sessionMeasure_eq doc s hf]
      dsimp only
      have hs1 : s.stall_count + 1 < 3 := by
        simp only [STALL_LIMIT] at h3
        omega
      generalize (if doc.hasShowReplies ∧ ¬s.st.show_more_replies then 4 else 0) = c
      generalize unseenCount doc s.seen_ids = u
      omega
  · rw [he, sessionMeasure_zero _ _ hsf]
    omega
  · have hpre := preScan_fields env doc a0 s
    obtain ⟨δ, adds, e1, e2, e3, e4, e5, e6, e7, e8, e9, e10, e11⟩ :=
      scan_spec env doc.articles (preScan env doc a0 s) 0
    rw [he]
    by_cases h3 : STALL_LIMIT ≤ postStall env doc a0 s
    · rw [sessionMeasure_zero _ _ (by simp [h3])]
      omega
    · rw [sessionMeasure_eq _ _ (by simp [h3]), sessionMeasure_eq doc s hf]
      dsimp only
      have hseen' : (postScan env doc a0 s).1.seen_ids = s.seen_ids ++ δ := by
        rw [postScan, e1, hpre.2.1]
      have hflag' : (postScan env doc a0 s).1.st.show_more_replies =
          (preScan env doc a0 s).st.show_more_replies := by
        rw [postScan, e7]
      have hstall' : (postScan env doc a0 s).1.stall_count =
          (preScan env doc a0 s).stall_count := by
        rw [postScan, e9]
      have hcount : (postScan env doc a0 s).2 = δ.length := by
        rw [postScan, e4]
        omega
      have h3' : postStall env doc a0 s < 3 := by
        simp only [STALL_LIMIT] at h3
        omega
      rw [hseen']
      cases hδ : δ with
      | nil =>
        have hps : postStall env doc a0 s = (preScan env doc a0 s).stall_count + 1 := by
          rw [postStall, hcount, hstall']
          simp [hδ]
        rw [hps] at h3'
        simp only [List.append_nil]
        rcases hpre.2.2 with ⟨hfl, hst⟩ | ⟨hfl, hst, hfl0, hbtn⟩
        · rw [hst] at hps h3'
          rw [hflag', hfl, hps]
          generalize (if doc.hasShowReplies ∧ ¬s.st.show_more_replies then 4 else 0) = c
          generalize unseenCount doc s.seen_ids = u
          omega
        · rw [hst] at hps
          rw [hflag', hfl, hps, hfl0, hbtn]
          simp only [Bool.not_true, Bool.not_false, decide_True, decide_False, and_true,
            and_false, if_true, if_false, not_true_eq_false, not_false_eq_true]
          simp
          omega
      | cons t₀ δtl =>
        have hps : postStall env doc a0 s = 0 := by
          rw [postStall, hcount]
          simp [hδ]
        obtain ⟨hnotin, a₁, ha₁, hta₁⟩ := e6 t₀ (by rw [hδ]; exact List.mem_cons_self _ _)
        rw [hpre.2.1] at hnotin
        have hU : unseenCount doc (s.seen_ids ++ t₀ :: δtl) < unseenCount doc s.seen_ids :=
          unseenCount_strict doc s.seen_ids _ (fun t ht => List.mem_append_left _ ht)
            t₀ a₁ ha₁ hta₁ hnotin
            (List.mem_append_right _ (List.mem_cons_self _ _))
        rw [hps]
        rcases hpre.2.2 with ⟨hfl, hst⟩ | ⟨hfl, hst, hfl0, hbtn⟩
        · rw [hflag', hfl]
          generalize hgc : (if doc.hasShowReplies ∧ ¬s.st.show_more_replies then 4 else 0) = c
          omega
        · rw [hflag', hfl, hfl0, hbtn]
          simp only [Bool.not_true, Bool.not_false, decide_True, decide_False, and_true,
            and_false, if_true, if_false, not_true_eq_false, not_false_eq_true]
          simp
          omega

/-- Iterating passes preserves the identifier invariant. -/
theorem passIter_idsInv (env : NetEnv) (docs : Nat → Document) (n : Nat) (s : Session)
    (h : IdsInv s) : IdsInv (passIter env docs n s) := by
  induction n with
  | zero => exact h
  | succ n ih => exact passStep_idsInv env (docs n) _ ih

/-- On a constant document stream, iteration commutes with one leading pass. -/
theorem passIter_const_comm (env : NetEnv) (doc : Document) (n : Nat) (s : Session) :
    passIter env (fun _ => doc) (n + 1) s =
      passIter env (fun _ => doc) n (passStep env doc s) := by
  induction n with
  | zero => rfl
  | succ n ih =>
    show passStep env doc (passIter env (fun _ => doc) (n + 1) s) = _
    rw [ih]
    rfl

/-- Enough fuel always finishes the loop on a fixed document. -/
theorem iter_finishes (env : NetEnv) (doc : Document) :
    ∀ (k : Nat) (s : Session), sessionMeasure doc s ≤ k →
      (passIter env (fun _ => doc) k s).finished = true := by
  intro k
  induction k with
  | zero =>
    intro s hs
    cases hb : s.finished
    · have := sessionMeasure_pos doc s hb
      omega
    · exact hb
  | succ k ih =>
    intro s hs
    cases hb : s.finished
    · have hdec := passStep_measure env doc s hb
      rw [passIter_const_comm]
      exact ih (passStep env doc s) (by omega)
    · rw [iter_stable env (fun _ => doc) 0 (k + 1) s hb (Nat.zero_le _)]
      exact hb

/-- The fuel used by `extract_tweets` exhausts the loop. -/
theorem passIter_finished (env : NetEnv) (doc : Document) (st : ScraperState) :
    (passIter env (fun _ => doc) (sessionMeasure doc (initSession st))
      (initSession st)).finished = true :=
  iter_finishes env doc _ _ (Nat.le_refl _)

/-! ### Stream termination (changing snapshots, no fresh identifiers) -/

/-- Unfinished sessions weigh at most 8. -/
theorem streamMeasure_le (s : Session) (h : s.finished = false) :
    1 ≤ streamMeasure s ∧ streamMeasure s ≤ 8 := by
  simp only [streamMeasure, h, Bool.false_eq_true, if_false]
  split <;> omega

/-- A scan over articles whose ids are all seen changes nothing. -/
theorem scan_nofresh (env : NetEnv) (arts : List Article) (s : Session) (n : Nat)
    (h : ∀ a ∈ arts, ∀ t, articleTid a = some t → t ∈ s.seen_ids) :
    scanArticles env arts s n = (s, n) := by
  induction arts with
  | nil => rfl
  | cons a rest ih =>
    have ih' := ih (fun x hx => h x (List.mem_cons_of_mem _ hx))
    cases hl : firstStatusLink a with
    | none => rw [show scanArticles env (a :: rest) s n = scanArticles env rest s n by
        simp [scanArticles, hl], ih']
    | some url =>
      cases hs : statusId url with
      | none => rw [show scanArticles env (a :: rest) s n = scanArticles env rest s n by
          simp [scanArticles, hl, hs], ih']
      | some tid =>
        have hseen : tid ∈ s.seen_ids :=
          h a (List.mem_cons_self _ _) tid (by simp [articleTid, hl, hs])
        rw [show scanArticles env (a :: rest) s n = scanArticles env rest s n by
          simp [scanArticles, hl, hs, hseen], ih']

/-- A pass that can admit nothing new keeps `seen_ids` and strictly burns the
stream measure. -/
theorem passStep_stream_dec (env : NetEnv) (doc : Document) (s : Session)
    (hf : s.finished = false)
    (h : ∀ a ∈ doc.articles, ∀ t, articleTid a = some t → t ∈ s.seen_ids) :
    streamMeasure (passStep env doc s) < streamMeasure s ∧
    (passStep env doc s).seen_ids = s.seen_ids := by
  have hpos := (streamMeasure_le s hf).1
  rcases passStep_spec env doc s hf with ⟨hd, he⟩ | ⟨a0, hd, hsf, he⟩ | ⟨a0, hd, hsf, he⟩
  · rw [he]
    constructor
    · by_cases h3 : STALL_LIMIT ≤ s.stall_count + 1
      · have hz : streamMeasure { s with stall_count := s.stall_count + 1,
                                          finished := decide (STALL_LIMIT ≤ s.stall_count + 1) } = 0 := by
          simp [streamMeasure, h3]
        rw [hz]
        omega
      · simp only [streamMeasure, hf, Bool.false_eq_true, if_false, decide_eq_true_eq]
        rw [if_neg h3]
        simp only [STALL_LIMIT] at h3
        dsimp only
        split <;> omega
    · rfl
  · rw [he]
    have hz : streamMeasure (preScan env doc a0 s) = 0 := by simp [streamMeasure, hsf]
    rw [hz]
    exact ⟨hpos, (preScan_fields env doc a0 s).2.1⟩
  · have hpre := preScan_fields env doc a0 s
    have hnof : ∀ a ∈ doc.articles, ∀ t, articleTid a = some t →
        t ∈ (preScan env doc a0 s).seen_ids := by
      intro a ha t ht
      rw [hpre.2.1]
      exact h a ha t ht
    have hscan : scanArticles env doc.articles (preScan env doc a0 s) 0 =
        (preScan env doc a0 s, 0) := scan_nofresh env doc.articles _ 0 hnof
    have hps : postStall env doc a0 s = (preScan env doc a0 s).stall_count + 1 := by
      rw [postStall, postScan, hscan]
      simp
    have hseen : (postScan env doc a0 s).1.seen_ids = s.seen_ids := by
      rw [postScan, hscan]
      exact hpre.2.1
    rw [he]
    refine ⟨?_, hseen⟩
    by_cases h3 : STALL_LIMIT ≤ postStall env doc a0 s
    · have hz : streamMeasure { (postScan env doc a0 s).1 with
                                  stall_count := postStall env doc a0 s,
                                  finished := decide (STALL_LIMIT ≤ postStall env doc a0 s) } = 0 := by
        simp [streamMeasure, h3]
      rw [hz]
      omega
    · have hsm : streamMeasure { (postScan env doc a0 s).1 with
                                   stall_count := postStall env doc a0 s,
                                   finished := decide (STALL_LIMIT ≤ postStall env doc a0 s) } =
          1 + (if (postScan env doc a0 s).1.st.show_more_replies then 0 else 4)
            + (3 - postStall env doc a0 s) := by
        simp only [streamMeasure, decide_eq_true_eq]
        rw [if_neg (by simpa using h3)]
      rw [hsm, postScan, hscan, hps]
      simp only [streamMeasure, hf, Bool.false_eq_true, if_false]
      simp only [STALL_LIMIT] at h3
      rw [hps] at h3
      rcases hpre.2.2 with ⟨hfl, hst⟩ | ⟨hfl, hst, hfl0, _⟩
      · rw [hfl, hst]
        rw [hst] at h3
        split <;> omega
      · rw [hfl, hst, hfl0]
        simp only [if_true, if_false, Bool.false_eq_true]
        omega

/-- Once no snapshot after pass `N` offers an unseen id, each further pass
burns the stream measure (or is already finished) and freezes `seen_ids`. -/
theorem stream_run (env : NetEnv) (docs : Nat → Document) (s0 : Session) (N : Nat)
    (H : ∀ n, N ≤ n → ∀ a ∈ (docs n).articles, ∀ t, articleTid a = some t →
      t ∈ (passIter env docs N s0).seen_ids) :
    ∀ k, (passIter env docs (N + k) s0).finished = true ∨
      ((passIter env docs (N + k) s0).seen_ids = (passIter env docs N s0).seen_ids ∧
        streamMeasure (passIter env docs (N + k) s0) + k ≤ 8) := by
  intro k
  induction k with
  | zero =>
    rw [Nat.add_zero]
    cases hb : (passIter env docs N s0).finished
    · right
      exact ⟨rfl, by have := (streamMeasure_le _ hb).2; omega⟩
    · left; rfl
  | succ k ih =>
    rcases ih with hfin | ⟨hseen, hm⟩
    · left
      show (passStep env (docs (N + k)) (passIter env docs (N + k) s0)).finished = true
      rw [passStep_finished_stable env _ _ hfin]
      exact hfin
    · cases hb : (passIter env docs (N + k) s0).finished
      · have hdec := passStep_stream_dec env (docs (N + k)) (passIter env docs (N + k) s0) hb
          (by
            intro a ha t ht
            rw [hseen]
            exact H (N + k) (Nat.le_add_right N k) a ha t ht)
        right
        constructor
        · show (passStep env (docs (N + k)) (passIter env docs (N + k) s0)).seen_ids = _
          rw [hdec.2, hseen]
        · have h1 := hdec.1
          show streamMeasure (passStep env (docs (N + k)) (passIter env docs (N + k) s0))
              + (k + 1) ≤ 8
          omega
      · left
        show (passStep env (docs (N + k)) (passIter env docs (N + k) s0)).finished = true
        rw [passStep_finished_stable env _ _ hb]
        exact hb

/-! ### Second-pass frame lemmas -/

/-- Overwriting one media field leaves every position's core payload alone. -/
theorem get_set_map_core : ∀ (l : List Item) (i : Nat) (t : Item) (m : MediaObj) (j : Nat),
    l[i]? = some t →
    ((l.set i { t with media := m })[j]?).map Item.core = (l[j]?).map Item.core := by
  intro l
  induction l with
  | nil => intro i t m j h; simp at h
  | cons a tl ih =>
    intro i t m j h
    cases i with
    | zero =>
      have ha : a = t := by simpa using h
      subst ha
      cases j with
      | zero => simp [Item.core]
      | succ j => simp
    | succ i =>
      cases j with
      | zero => simp
      | succ j =>
        have hred : ((a :: tl).set (i + 1) { t with media := m })[j + 1]? =
            (tl.set i { t with media := m })[j]? := by simp
        have hr2 : (a :: tl)[j + 1]? = tl[j]? := by simp
        rw [hred, hr2]
        exact ih i t m j (by simpa using h)

/-- Frame: `setMedia` preserves the core payload at every index. -/
theorem setMedia_core (tweets : List Item) (idx : Nat) (m : MediaObj) (j : Nat) :
    ((setMedia tweets idx m)[j]?).map Item.core = (tweets[j]?).map Item.core := by
  unfold setMedia
  cases h : tweets[idx]? with
  | none => rfl
  | some t => exact get_set_map_core tweets idx t m j h

/-- Pointwise-equal cores give equal id lists. -/
theorem core_map_tid (l l' : List Item)
    (h : ∀ i : Nat, (l'[i]?).map Item.core = (l[i]?).map Item.core) :
    l'.map Item.tweet_id = l.map Item.tweet_id := by
  have hc : l'.map Item.core = l.map Item.core := by
    apply List.ext_getElem?
    intro i
    rw [List.getElem?_map, List.getElem?_map]
    exact h i
  have h2 : (l'.map Item.core).map Prod.fst = (l.map Item.core).map Prod.fst := by rw [hc]
  simpa [List.map_map] using h2

/-- The second media pass touches only media fields: every position keeps its
core payload, and if no pending article is materialized the list is returned
unchanged. -/
theorem secondPass_frame (find : String → Option Article) (env : NetEnv) :
    ∀ (pending : List (String × Nat)) (st : ScraperState) (tweets : List Item),
      (∀ i : Nat, ((secondPass find env st tweets pending).2[i]?).map Item.core =
        (tweets[i]?).map Item.core) ∧
      ((∀ p ∈ pending, find p.1 = none) →
        (secondPass find env st tweets pending).2 = tweets) := by
  intro pending
  induction pending with
  | nil => exact fun st tweets => ⟨fun i => rfl, fun _ => rfl⟩
  | cons p rest ih =>
    intro st tweets
    obtain ⟨tid, idx⟩ := p
    cases hfind : find tid with
    | none =>
      have he : secondPass find env st tweets ((tid, idx) :: rest) =
          secondPass find env st tweets rest := by
        simp [secondPass, hfind]
      rw [he]
      obtain ⟨l1, l2⟩ := ih st tweets
      exact ⟨l1, fun hall => l2 (fun q hq => hall q (List.mem_cons_of_mem _ hq))⟩
    | some art =>
      rcases hp : parse_tweet st env art with ⟨st', fixed⟩
      have hcontra : (∀ p ∈ ((tid, idx) :: rest), find p.1 = none) → False := by
        intro hall
        have := hall (tid, idx) (List.mem_cons_self _ _)
        rw [hfind] at this
        cases this
      cases fixed with
      | none =>
        have he : secondPass find env st tweets ((tid, idx) :: rest) =
            secondPass find env st' tweets rest := by
          simp [secondPass, hfind, hp]
        rw [he]
        obtain ⟨l1, _⟩ := ih st' tweets
        exact ⟨l1, fun hall => absurd hall (fun h => hcontra h)⟩
      | some f =>
        by_cases hm : f.media.isEmptyMedia = true
        · have he : secondPass find env st tweets ((tid, idx) :: rest) =
              secondPass find env st' tweets rest := by
            simp [secondPass, hfind, hp, hm]
          rw [he]
          obtain ⟨l1, _⟩ := ih st' tweets
          exact ⟨l1, fun hall => absurd hall (fun h => hcontra h)⟩
        · have hm' : f.media.isEmptyMedia = false := by
            cases hb : f.media.isEmptyMedia
            · rfl
            · exact absurd hb hm
          have he : secondPass find env st tweets ((tid, idx) :: rest) =
              secondPass find env st' (setMedia tweets idx f.media) rest := by
            simp [secondPass, hfind, hp, hm']
          rw [he]
          obtain ⟨l1, _⟩ := ih st' (setMedia tweets idx f.media)
          refine ⟨?_, fun hall => absurd hall (fun h => hcontra h)⟩
          intro i
          rw [l1 i, setMedia_core]

/-! ### Media-resolution lemmas -/

/-- A derived id implies a live video element. -/
theorem derived_hasVideoEl (a : Article) (v : String)
    (hd : derivedVideoId a = some v) : a.hasVideoEl = true := by
  by_contra hc
  have hf : a.hasVideoEl = false := by
    cases hb : a.hasVideoEl
    · rfl
    · exact absurd hb hc
  rw [derivedVideoId, hf] at hd
  simp at hd

/-- Inserted ids are members. -/
theorem mem_insertId (l : List String) (v : String) : v ∈ insertId l v := by
  unfold insertId
  split
  · assumption
  · exact List.mem_cons_self _ _

/-- Running `_media` on an already-assigned id: state untouched, no video block. -/
theorem media_skip_assigned (st : ScraperState) (env : NetEnv) (a : Article) (v : String)
    (hd : derivedVideoId a = some v) (hv : v ∈ st.assigned_video_ids) :
    media st env a =
      (st, { images := a.imgSrcs.filter (fun u => strContains u "twimg.com/media"),
             video := none }) := by
  have hvel := derived_hasVideoEl a v hd
  simp [media, hvel, hd, hv]

/-- Running `_media` on an unassigned id with an empty pool entry: state untouched,
no video block. -/
theorem media_empty_pool (st : ScraperState) (env : NetEnv) (a : Article) (v : String)
    (hd : derivedVideoId a = some v) (hv : v ∉ st.assigned_video_ids)
    (hp : poolLookup st.video_pool v = []) :
    media st env a =
      (st, { images := a.imgSrcs.filter (fun u => strContains u "twimg.com/media"),
             video := none }) := by
  have hvel := derived_hasVideoEl a v hd
  simp [media, hvel, hd, hv, hp]

/-- Running `_media` on an unassigned id with a non-empty pool entry marks exactly
that id assigned, whatever the variants turn out to be. -/
theorem media_nonempty_pool_st (st : ScraperState) (env : NetEnv) (a : Article) (v : String)
    (hd : derivedVideoId a = some v) (hv : v ∉ st.assigned_video_ids)
    (hp : poolLookup st.video_pool v ≠ []) :
    (media st env a).1 =
      { st with assigned_video_ids := insertId st.assigned_video_ids v } := by
  have hvel := derived_hasVideoEl a v hd
  simp only [media, hvel, hd, hv, hp]
  simp [hv, hp]

/-! ### Claim theorems -/

/-- C2: the spec says counter parsing maps `"12,345"` to 12345, `"3.2K"` to
3200, `"1M"` to 1000000, and every unparseable, empty or absent input to 0.
The code agrees on `"12,345"`, `"1M"`, absent, empty and plain-garbage
inputs, but it deletes every `"."` *before* handling the `K` suffix, so
`"3.2K"` evaluates to 32000 (not 3200); moreover an input like `"K"` raises
an uncaught `ValueError` from `float("")` (modelled as `none`) instead of
returning 0. -/
theorem c2_clean_count_eval :
    clean_count (some "12,345") = some 12345 ∧
    clean_count (some "1M") = some 1000000 ∧
    clean_count none = some 0 ∧
    clean_count (some "") = some 0 ∧
    clean_count (some "xyz") = some 0 ∧
    clean_count (some "3.2K") = some 32000 ∧
    clean_count (some "K") = none := by decide

/-- C3: the spec says the four engagement fields of an admitted item are
non-negative integers, 0 when the token is absent or unparseable.  In the
code `_parse_tweet` stores the *raw on-screen tokens* (strings) returned by
`_raw_count`/`_raw_views` — `clean_count` is never called — so an article
showing `3.2K` likes yields the string `"3.2K"` and absent tokens yield
`""`, not the integer 0. -/
theorem c3_parse_stores_raw_tokens :
    (parse_tweet { initScraper with author_handle := some "alice" } envNone c3Art).2 =
      some { tweet_id := "77", datetime := some "2024-05-01T10:00:00.000Z",
             tweet := "hello world", likes := "3.2K", retweets := "",
             replies := "12", views := "", media := {} } := by decide

/-- C1: the spec says every batch URL is scraped with a fresh session
(author re-resolved, assignments and pool empty).  In the code `main`
constructs one `ThreadScraper` before the URL loop, so `author_handle`
persists: scraping `@alice`'s thread and then `@bob`'s yields a second
record still attributed to `alice` with zero tweets, while a fresh session
on the same second document resolves `bob` and extracts his tweet. -/
theorem c1_batch_session_reuse :
    ((runBatch envNone [("https://x.com/alice/status/201", docAlice),
        ("https://x.com/bob/status/999", docBob)] initScraper).2.map
      (fun r => (r.author_username, r.tweets.length)) =
        [(some "alice", 1), (some "alice", 0)]) ∧
    (scrape initScraper envNone "https://x.com/bob/status/999" docBob).2.author_username =
      some "bob" ∧
    (scrape initScraper envNone "https://x.com/bob/status/999" docBob).2.tweets =
      [bobItem] := by
  refine ⟨?_, ?_, ?_⟩ <;> decide

/-- C7: for every completed session the item identifiers in the final result
list are pairwise distinct — an item is admitted at most once even when its
node is re-scanned in several passes, and the second media pass never adds
or removes items. -/
theorem c7_unique_ids (env : NetEnv) (doc : Document) (st : ScraperState) :
    ((extract_tweets env doc st).2.map Item.tweet_id).Nodup := by
  have hinv : IdsInv (passIter env (fun _ => doc)
      (sessionMeasure doc (initSession st)) (initSession st)) :=
    passIter_idsInv env _ _ _ ⟨rfl, List.nodup_nil⟩
  unfold extract_tweets
  set s := passIter env (fun _ => doc)
    (sessionMeasure doc (initSession st)) (initSession st) with hs
  by_cases hfat : s.fatal = true
  · simp only [hfat, if_true]
    rw [hinv.1]
    exact hinv.2
  · have hfat' : (s.fatal = true) = False := by simp [hfat]
    simp only [hfat', if_false]
    have hfr := (secondPass_frame (findByTid doc) env s.pending_media s.st s.tweets).1
    have hmap := core_map_tid s.tweets _ hfr
    rw [hmap, hinv.1]
    exact hinv.2

/-- C9: the second-pass hydrator may change only the media field of a
revisited item: its id, timestamp, text and the four counter tokens are
unchanged at every position, the list length is unchanged, and when no
pending item's article is still materialized the whole list is returned
exactly as it was (not an error). -/
theorem c9_second_pass_frame (find : String → Option Article) (env : NetEnv)
    (st : ScraperState) (tweets : List Item) (pending : List (String × Nat)) :
    (secondPass find env st tweets pending).2.length = tweets.length ∧
    (∀ i : Nat, ((secondPass find env st tweets pending).2[i]?).map Item.core =
      (tweets[i]?).map Item.core) ∧
    ((∀ p ∈ pending, find p.1 = none) →
      (secondPass find env st tweets pending).2 = tweets) := by
  obtain ⟨h1, h2⟩ := secondPass_frame find env pending st tweets
  refine ⟨?_, h1, h2⟩
  have hmap := core_map_tid tweets _ h1
  calc (secondPass find env st tweets pending).2.length
      = ((secondPass find env st tweets pending).2.map Item.tweet_id).length :=
        (List.length_map _ _).symm
    _ = (tweets.map Item.tweet_id).length := by rw [hmap]
    _ = tweets.length := List.length_map _ _

/-- Witness for C9 at a concrete input: one pending tweet whose article is no
longer materialized is left untouched. -/
theorem c9_second_pass_frame_witness :
    (secondPass (fun _ => none) envNone initScraper
      [aliceItem "300" "w"] [("300", 0)]).2 = [aliceItem "300" "w"] :=
  (c9_second_pass_frame (fun _ => none) envNone initScraper
    [aliceItem "300" "w"] [("300", 0)]).2.2 (fun p _ => rfl)

/-- C5 counterexample: the claim says an identifier is marked assigned
exactly when its resolution yielded at least one variant.  With a pool entry
holding only an audio-segment URL (excluded by both the playlist and the
direct-file filters) the resolution yields no variant and no video block,
yet the id is marked assigned, because the code tests `if pool:` rather than
`if variants:`. -/
theorem c5_assigned_without_variant_counterexample :
    "123" ∈ (media c5State envNone c5Art).1.assigned_video_ids ∧
    (media c5State envNone c5Art).2.video = none := by decide

/-- C5 (amended): assignment is exclusive — of two articles deriving the same
unassigned asset id, at most one receives a video block, the other resolving
to empty video media; and the id is marked assigned exactly when its pooled
URL list was non-empty at resolution time (not when a variant resulted). -/
theorem c5_exclusive_assignment (st : ScraperState) (env : NetEnv) (a1 a2 : Article)
    (v : String) (h1 : derivedVideoId a1 = some v) (h2 : derivedVideoId a2 = some v)
    (hv : v ∉ st.assigned_video_ids) :
    ¬((media st env a1).2.video.isSome = true ∧
      ((media (media st env a1).1 env a2).2.video.isSome = true)) ∧
    (v ∈ (media st env a1).1.assigned_video_ids ↔ poolLookup st.video_pool v ≠ []) := by
  by_cases hp : poolLookup st.video_pool v = []
  · have he := media_empty_pool st env a1 v h1 hv hp
    rw [he]
    constructor
    · intro hc
      simp at hc
    · simp only []
      constructor
      · intro hin
        exact absurd hin hv
      · intro hne
        exact absurd hp hne
  · have hst := media_nonempty_pool_st st env a1 v h1 hv hp
    have hmem : v ∈ (media st env a1).1.assigned_video_ids := by
      rw [hst]
      exact mem_insertId _ _
    have hskip := media_skip_assigned (media st env a1).1 env a2 v h2 hmem
    constructor
    · intro hc
      rw [hskip] at hc
      simp at hc
    · exact ⟨fun _ => hp, fun _ => hmem⟩

/-- Witness for C5: with a direct mp4 URL pooled for asset `5`, at most one
of two articles deriving `5` gets a video block, and `5` is assigned iff the
pool entry is non-empty. -/
theorem c5_exclusive_assignment_witness :
    ¬((media c5wState envNone c5wArt).2.video.isSome = true ∧
      ((media (media c5wState envNone c5wArt).1 envNone c5wArt).2.video.isSome = true)) ∧
    ("5" ∈ (media c5wState envNone c5wArt).1.assigned_video_ids ↔
      poolLookup c5wState.video_pool "5" ≠ []) :=
  c5_exclusive_assignment c5wState envNone c5wArt c5wArt "5"
    (by decide) (by decide) (by decide)

/-- C10: every variant produced from a successfully fetched (status 200,
non-mp4) playlist carries the playlist's own URL in its `url` field (never a
per-variant stream URL from the body), and a 200 playlist with no
`#EXT-X-STREAM-INF` line yields exactly one variant with null bitrate, null
resolution and the playlist URL, rather than an empty list. -/
theorem c10_manifest_variants (env : NetEnv) (url : String) (lines : List String)
    (h4 : strContains url ".mp4" = false) (hg : env.get url = .ok (200, lines)) :
    fetch_video_variants env url = .ok (m3u8Variants lines url) ∧
    (∀ v ∈ m3u8Variants lines url, v.url = url) ∧
    ((∀ l ∈ lines, strContains l "#EXT-X-STREAM-INF" = false) →
      m3u8Variants lines url = [{ bitrate := none, resolution := none, url := url }]) := by
  refine ⟨by simp [fetch_video_variants, h4, hg], ?_, ?_⟩
  · intro v hv
    unfold m3u8Variants at hv
    by_cases hout : (lines.filterMap (fun line =>
        if strContains line "#EXT-X-STREAM-INF" then
          some { bitrate := (searchKeyDigits (chars "BANDWIDTH=") (afterColon (chars line))).map
                   (fun d => (digitsVal d : Int)),
                 resolution := (searchResolution (afterColon (chars line))).map ofChars,
                 url := url }
        else none) : List Variant) = []
    · rw [if_pos hout] at hv
      have : v = { bitrate := none, resolution := none, url := url } := by simpa using hv
      rw [this]
    · rw [if_neg hout] at hv
      obtain ⟨line, _, hline⟩ := List.mem_filterMap.1 hv
      by_cases hs : strContains line "#EXT-X-STREAM-INF" = true
      · rw [if_pos hs] at hline
        have := Option.some.inj hline
        rw [← this]
      · rw [if_neg hs] at hline
        cases hline
  · intro hno
    unfold m3u8Variants
    have hnil : (lines.filterMap (fun line =>
        if strContains line "#EXT-X-STREAM-INF" then
          some { bitrate := (searchKeyDigits (chars "BANDWIDTH=") (afterColon (chars line))).map
                   (fun d => (digitsVal d : Int)),
                 resolution := (searchResolution (afterColon (chars line))).map ofChars,
                 url := url }
        else none) : List Variant) = [] := by
      rw [List.filterMap_eq_nil]
      intro l hl
      rw [hno l hl]
      simp
    rw [hnil]
    simp

/-- Witness for C10: a playlist with one stream entry keeps the playlist URL
on the parsed variant, and an entry-free playlist yields the single default
variant. -/
theorem c10_manifest_variants_witness :
    fetch_video_variants
        { get := fun u => if u = "a/pl.m3u8" then .ok (200, ["#EXTM3U"]) else .error (),
          head := fun _ => 0 } "a/pl.m3u8" =
      .ok (m3u8Variants ["#EXTM3U"] "a/pl.m3u8") ∧
    (∀ v ∈ m3u8Variants ["#EXTM3U"] "a/pl.m3u8", v.url = "a/pl.m3u8") ∧
    ((∀ l ∈ ["#EXTM3U"], strContains l "#EXT-X-STREAM-INF" = false) →
      m3u8Variants ["#EXTM3U"] "a/pl.m3u8" =
        [{ bitrate := none, resolution := none, url := "a/pl.m3u8" }]) :=
  c10_manifest_variants
    { get := fun u => if u = "a/pl.m3u8" then .ok (200, ["#EXTM3U"]) else .error (),
      head := fun _ => 0 } "a/pl.m3u8" ["#EXTM3U"] (by decide) rfl

/-- C8: inside one pool entry, a manifest URL whose fetch raises does not
abort resolution of the other URLs — the second manifest's parsed variants
and the sibling direct-file URL's size-heuristic variant are all collected —
so a failed manifest never by itself yields empty video media when a direct
URL exists in the same entry. -/
theorem c8_manifest_failure_isolated (st : ScraperState) (env : NetEnv) (a : Article)
    (v u1 u2 d : String) (lines : List String)
    (hd : derivedVideoId a = some v) (hv : v ∉ st.assigned_video_ids)
    (hp : poolLookup st.video_pool v = [u1, u2, d])
    (h1m : strContains u1 ".m3u8" = true) (h14 : strContains u1 ".mp4" = false)
    (h2m : strContains u2 ".m3u8" = true) (h24 : strContains u2 ".mp4" = false)
    (hdm : strContains d ".m3u8" = false) (hd4 : strContains d ".mp4" = true)
    (hda : strContains d "/aud/" = false) (hdp : strContains d "mp4a" = false)
    (hds : strContains d "m4s" = false)
    (hf1 : env.get u1 = .error ()) (hf2 : env.get u2 = .ok (200, lines)) :
    ((media st env a).2.video.map VideoBlock.variants) =
      some (m3u8Variants lines u2 ++ variant_from_mp4 env d) ∧
    m3u8Variants lines u2 ++ variant_from_mp4 env d ≠ [] := by
  have hvel := derived_hasVideoEl a v hd
  have hfetch1 : fetch_video_variants env u1 = .error () := by
    simp [fetch_video_variants, h14, hf1]
  have hfetch2 : fetch_video_variants env u2 = .ok (m3u8Variants lines u2) := by
    simp [fetch_video_variants, h24, hf2]
  have hfetchd : fetch_video_variants env d = .ok (variant_from_mp4 env d) := by
    simp [fetch_video_variants, hd4]
  have hne : m3u8Variants lines u2 ++ variant_from_mp4 env d ≠ [] := by
    intro hc
    have := congrArg List.length hc
    simp [variant_from_mp4] at this
  refine ⟨?_, hne⟩
  simp only [media, hvel, Bool.not_true, Bool.false_eq_true, if_false, hd, hv, hp]
  simp [h1m, h14, h2m, h24, hdm, hd4, hda, hdp, hds, hfetch1, hfetch2, hfetchd, hne,
    List.filter]

/-- Witness for C8: the failed first playlist is dropped while the second
playlist's variant and the direct file's heuristic variant both survive. -/
theorem c8_manifest_failure_isolated_witness :
    ((media c8wState c8wEnv c8wArt).2.video.map VideoBlock.variants) =
      some (m3u8Variants c8wLines "a/p2.m3u8" ++ variant_from_mp4 c8wEnv "b/v1.mp4") ∧
    m3u8Variants c8wLines "a/p2.m3u8" ++ variant_from_mp4 c8wEnv "b/v1.mp4" ≠ [] :=
  c8_manifest_failure_isolated c8wState c8wEnv c8wArt "7" "a/p1.m3u8" "a/p2.m3u8" "b/v1.mp4"
    c8wLines (by decide) (by decide) (by decide) (by decide) (by decide) (by decide)
    (by decide) (by decide) (by decide) (by decide) (by decide) (by decide) rfl rfl

set_option maxRecDepth 16384 in
/-- C4: once at least one authored item has been admitted, scanning a node
whose permalink handle differs from the author's terminates the pass at that
node — the tail counter reaches `TAIL_LIMIT = 1`, nothing after it is
processed (first conjunct, for any continuation of the article list) — and a
thread of 5 author items followed by a trailing reply from another account
yields exactly the 5 items, even with a further authored article after the
reply (never reached, hence never admitted). -/
theorem c4_author_tail_terminates :
    (∀ (env : NetEnv) (arts : List Article) (s : Session) (n : Nat) (a : Article)
        (url tid : String),
      firstStatusLink a = some url → statusId url = some tid → tid ∉ s.seen_ids →
      s.st.author_handle ≠ some (firstComponent url) → s.tweets ≠ [] →
      scanArticles env (a :: arts) s n =
        ({ s with after_thread_tail := s.after_thread_tail + 1 }, n)) ∧
    (extract_tweets envNone
        { articles := fiveAliceArts ++ bobArt :: [aliceArt "106" "six"] }
        initScraper).2 = fiveAliceItems := by
  constructor
  · intro env arts s n a url tid hl hs hseen hh htw
    simp [scanArticles, hl, hs, hseen, hh, htw, TAIL_LIMIT]
  · decide

/-- Witness for C4: the first conjunct applied to a mid-thread session at a
non-author node followed by a further authored article, which the returned
session shows was not reached. -/
theorem c4_author_tail_terminates_witness :
    scanArticles envNone [bobArt, aliceArt "106" "six"]
        { st := { initScraper with author_handle := some "alice" },
          tweets := [aliceItem "101" "one"], seen_ids := ["101"] } 0 =
      ({ st := { initScraper with author_handle := some "alice" },
         tweets := [aliceItem "101" "one"], seen_ids := ["101"],
         after_thread_tail := 1 }, 0) :=
  c4_author_tail_terminates.1 envNone [aliceArt "106" "six"]
    { st := { initScraper with author_handle := some "alice" },
      tweets := [aliceItem "101" "one"], seen_ids := ["101"] } 0 bobArt
    "/bob/status/999" "999" (by decide) (by decide) (by decide) (by decide) (by decide)

/-- C6: for every session in which the document eventually stops producing
unseen item identifiers — after some pass `N`, every article in every later
snapshot carries an id already seen by pass `N` — the loop reaches its
finished state within 8 further passes (the stall counter reaches its limit
of 3, with at most one reset from the one-shot expand click); the scan/
scroll loop never runs unboundedly under that precondition. -/
theorem c6_bounded_termination (env : NetEnv) (docs : Nat → Document)
    (st : ScraperState) (N : Nat)
    (H : ∀ n, N ≤ n → ∀ a ∈ (docs n).articles, ∀ t, articleTid a = some t →
      t ∈ (passIter env docs N (initSession st)).seen_ids) :
    (passIter env docs (N + 8) (initSession st)).finished = true := by
  rcases stream_run env docs (initSession st) N H 8 with hfin | ⟨_, hm⟩
  · exact hfin
  · cases hb : (passIter env docs (N + 8) (initSession st)).finished
    · have := (streamMeasure_le _ hb).1
      omega
    · rfl

/-- Witness for C6: a page that never materializes an article stalls out
within 8 passes of the start. -/
theorem c6_bounded_termination_witness :
    (passIter envNone (fun _ => ({ articles := [] } : Document)) (0 + 8)
      (initSession initScraper)).finished = true :=
  c6_bounded_termination envNone (fun _ => ({ articles := [] } : Document)) initScraper 0
    (by intro n _ a ha _ _; simp at ha)
